import Mathlib

/-
Shallow embedding of the sudoku_api repository (src/sudoku.rs and
src/main.rs) together with proofs about its specified behaviour.

Grids are `List (List Nat)` with 0 denoting an empty cell, mirroring
`Vec<Vec<usize>>`.  The randomized parts (`rand::thread_rng`) are
modelled by an explicit stream of pre-drawn numbers (`List Nat`), and
the unbounded loops/recursion of `generate` are modelled with an
explicit fuel parameter: `none` stands for a run that did not terminate
within the given fuel.  The recursion depth of `solve_ultimately` in the
Rust code is bounded by the number of empty cells, so `solve` runs it
with fuel `grid entries + 1`, which is always sufficient.
-/

deriving instance DecidableEq for Except

namespace SudokuApi

abbrev Grid := List (List Nat)

structure ModeType where
  width : Nat
  height : Nat
  lower_size : Nat
  higher_size : Nat
deriving DecidableEq, Repr

structure Sudoku where
  grid : Grid
  mode : ModeType
  block_size : Nat
  numbers : List Nat
deriving DecidableEq, Repr

/-- The static `MODES` registry from src/sudoku.rs. -/
def MODES (key : String) : Option ModeType :=
  if key = "4" then some ⟨2, 2, 4, 8⟩
  else if key = "6" then some ⟨3, 2, 9, 18⟩
  else if key = "8" then some ⟨2, 4, 18, 36⟩
  else if key = "9" then some ⟨3, 3, 17, 40⟩
  else none

def DEFAULT_MODE : String := "9"

/-- `Sudoku::default_grid`. -/
def default_grid (block_size : Nat) : Grid :=
  List.replicate block_size (List.replicate block_size 0)

/-- `Sudoku::new`; `none` models the panic of `.unwrap()` on an
unsupported mode key. -/
def sudoku_new (grid : Option Grid) (mode : Option String) : Option Sudoku :=
  let mode_key := match grid with
    | some g => toString g.length
    | none => mode.getD DEFAULT_MODE
  match MODES mode_key with
  | none => none
  | some m =>
    let block_size := m.width * m.height
    some { grid := grid.getD (default_grid block_size)
           mode := m
           block_size := block_size
           numbers := List.range' 1 block_size }

/-- `Sudoku::reset`. -/
def reset (s : Sudoku) : Sudoku :=
  { s with grid := default_grid s.block_size }

/-- `Sudoku::set_board`. -/
def set_board (s : Sudoku) (board : Grid) : Sudoku :=
  { s with grid := board }

/-- `Sudoku::get_count`. -/
def get_count (s : Sudoku) : Nat :=
  ((s.grid.flatten).filter (fun x => decide (x > 0))).length

/-- `Sudoku::get_difficulty`. -/
def get_difficulty (s : Sudoku) : String :=
  let count := get_count s
  if 40 ≤ count ∧ count ≤ 81 then "Easy"
  else if 25 ≤ count ∧ count ≤ 39 then "Medium"
  else if 1 ≤ count ∧ count ≤ 24 then "Hard"
  else "Unknown"

/-- `Sudoku::get` (`self.grid[y][x]`, total model of the index). -/
def get (s : Sudoku) (x y : Nat) : Nat :=
  (s.grid.getD y []).getD x 0

/-- The assignment `self.grid[y][x] = value`. -/
def writeCell (s : Sudoku) (x y value : Nat) : Sudoku :=
  { s with grid := s.grid.set y ((s.grid.getD y []).set x value) }

/-- `Sudoku::row`. -/
def row (s : Sudoku) (y : Nat) : List Nat :=
  s.grid.getD y []

/-- `Sudoku::column`. -/
def column (s : Sudoku) (x : Nat) : List Nat :=
  s.grid.map (fun r => r.getD x 0)

/-- `Sudoku::allowed_numbers_in_row`. -/
def allowed_numbers_in_row (s : Sudoku) (y : Nat) : List Nat :=
  s.numbers.filter (fun num => !((row s y).contains num))

/-- `Sudoku::allowed_numbers_in_column`. -/
def allowed_numbers_in_column (s : Sudoku) (x : Nat) : List Nat :=
  s.numbers.filter (fun num => !((column s x).contains num))

/-- The `numbers_in_block` vector built inside
`Sudoku::allowed_numbers_in_block` (pushed with `i` outer, `j` inner). -/
def blockValues (s : Sudoku) (x y : Nat) : List Nat :=
  let bx := (x / s.mode.width) * s.mode.width
  let b_y := (y / s.mode.height) * s.mode.height
  ((List.range s.mode.width).map (fun i =>
    (List.range s.mode.height).map (fun j => get s (bx + i) (b_y + j)))).flatten

/-- `Sudoku::allowed_numbers_in_block`. -/
def allowed_numbers_in_block (s : Sudoku) (x y : Nat) : List Nat :=
  s.numbers.filter (fun num => !((blockValues s x y).contains num))

/-- `Sudoku::allowed_numbers` (the candidate computation, including the
short-circuit on a block-only candidate set of length ≤ 1). -/
def allowed_numbers (s : Sudoku) (x y : Nat) : List Nat :=
  let numbers_in_block := allowed_numbers_in_block s x y
  if 1 < numbers_in_block.length then
    numbers_in_block.filter (fun num =>
      (allowed_numbers_in_row s y).contains num &&
      (allowed_numbers_in_column s x).contains num)
  else
    numbers_in_block

/-- `Sudoku::set`.  The pure model returns the updated `Sudoku` on
success (the Rust code mutates `self.grid` and returns `Ok(value)`) and
the exact error string on failure; on failure the Rust grid is left
unchanged. -/
def set (s : Sudoku) (x y value : Nat) : Except String Sudoku :=
  if 0 < value then
    if get s x y = value then Except.ok s
    else if !((allowed_numbers_in_row s y).contains value) then
      Except.error (toString value ++ " is not allowed in the row " ++ toString y)
    else if !((allowed_numbers_in_column s x).contains value) then
      Except.error (toString value ++ " is not allowed in the column " ++ toString x)
    else if !((allowed_numbers_in_block s x y).contains value) then
      Except.error (toString value ++ " is not allowed in the block")
    else Except.ok (writeCell s x y value)
  else Except.ok (writeCell s x y value)

/-- The grid state after a call to `set`, successful or not (a failing
`set` leaves the Rust grid unchanged). -/
def setResult (s : Sudoku) (x y value : Nat) : Sudoku :=
  match set s x y value with
  | Except.ok t => t
  | Except.error _ => s

/-- `Sudoku::empty_cells` (row-major `(x, y)` pairs of cells holding 0). -/
def empty_cells (s : Sudoku) : List (Nat × Nat) :=
  ((List.range s.grid.length).map (fun y =>
    (List.range ((s.grid.getD y []).length)).filterMap (fun x =>
      if (s.grid.getD y []).getD x 0 = 0 then some (x, y) else none))).flatten

/-- The scanning loop of `Sudoku::any_empty_cell`. -/
def aec_loop (s : Sudoku) : List (Nat × Nat) → Nat → Option (Nat × Nat) → Option (Nat × Nat)
  | [], _, result => result
  | c :: rest, min_length, result =>
    let length := (allowed_numbers s c.1 c.2).length
    let result2 := if length < min_length then some c else result
    let min2 := if length < min_length then length else min_length
    if length = 1 then result2 else aec_loop s rest min2 result2

/-- `Sudoku::any_empty_cell`. -/
def any_empty_cell (s : Sudoku) (allowed_numbers_length : Option Nat) : Option (Nat × Nat) :=
  aec_loop s (empty_cells s) (allowed_numbers_length.getD (s.block_size + 1)) none

/-- `Sudoku::is_solved`. -/
def is_solved (s : Sudoku) : Bool :=
  s.grid.all (fun r => r.all (fun num => decide (num > 0)))

/-- The `for value in allowed_numbers` loop body of
`Sudoku::solve_ultimately`; `step` is the recursive call at one less
recursion depth. -/
def try_values (step : Sudoku → Bool × Sudoku) (x y : Nat) :
    Sudoku → List Nat → Bool × Sudoku
  | s, [] => (false, s)
  | s, v :: vs =>
    match set s x y v with
    | Except.ok s1 =>
      match step s1 with
      | (true, s2) => (true, s2)
      | (false, s2) => try_values step x y (writeCell s2 x y 0) vs
    | Except.error _ => try_values step x y (writeCell s x y 0) vs

/-- `Sudoku::solve_ultimately`, with explicit fuel bounding the
recursion depth (in the Rust code the depth is bounded by the number of
empty cells, since every recursive call happens after a successful
nonzero placement into an empty cell). -/
def solve_ultimately : Nat → Sudoku → Bool × Sudoku
  | 0, s => (false, s)
  | fuel + 1, s =>
    if is_solved s then (true, s)
    else
      match any_empty_cell s none with
      | some (x, y) => try_values (solve_ultimately fuel) x y s (allowed_numbers s x y)
      | none => (false, s)

/-- `Sudoku::solve`: returns the solved grid and the final state.  Fuel
`grid entries + 1` dominates `empty cells + 1`, the real recursion
depth bound. -/
def solve (s : Sudoku) : Option Grid × Sudoku :=
  match solve_ultimately (s.grid.flatten.length + 1) s with
  | (true, t) => (some t.grid, t)
  | (false, t) => (none, t)

/-- One draw of `rng.gen_range(0..n)` from the pre-drawn stream. -/
def nextR (rng : List Nat) (n : Nat) : Nat × List Nat :=
  (rng.headD 0 % n, rng.tail)

/-- One draw of `rng.gen_range(lo..=hi)` from the pre-drawn stream. -/
def nextRange (rng : List Nat) (lo hi : Nat) : Nat × List Nat :=
  (lo + rng.headD 0 % (hi - lo + 1), rng.tail)

/-- The seeding `while base_numbers > 0` loop of `Sudoku::generate`.
The last argument is `base_numbers`; `none` models a run that did not
terminate within `fuel` iterations (the Rust loop is unbounded). -/
def seed_loop : Nat → List Nat → Sudoku → Nat → Option (Sudoku × List Nat)
  | _, rng, s, 0 => some (s, rng)
  | 0, _, _, _ + 1 => none
  | fuel + 1, rng, s, base_numbers + 1 =>
    let (fill_x, rng1) := nextR rng s.block_size
    let (fill_y, rng2) := nextR rng1 s.block_size
    let a := allowed_numbers s fill_x fill_y
    if a.length > s.block_size / 3 then
      let (random_index, rng3) := nextR rng2 a.length
      match set s fill_x fill_y (a.getD random_index 0) with
      | Except.ok s1 => seed_loop fuel rng3 s1 base_numbers
      | Except.error _ => seed_loop fuel rng3 s (base_numbers + 1)
    else seed_loop fuel rng2 s (base_numbers + 1)

/-- The digging `while dig_numbers > 0` loop of `Sudoku::generate`; the
`none` on the `Except.error` branch models the `.unwrap()` (which never
fires, since `set` with value 0 always succeeds). -/
def dig_loop : Nat → List Nat → Sudoku → Nat → Nat → Option (Sudoku × List Nat)
  | _, rng, s, _, 0 => some (s, rng)
  | 0, _, _, _, _ + 1 => none
  | fuel + 1, rng, s, max_allowed_size, dig_numbers + 1 =>
    let (dig_x, rng1) := nextR rng s.block_size
    let (dig_y, rng2) := nextR rng1 s.block_size
    if get s dig_x dig_y > 0 ∧ (allowed_numbers s dig_x dig_y).length < max_allowed_size then
      match set s dig_x dig_y 0 with
      | Except.ok s1 => dig_loop fuel rng2 s1 max_allowed_size dig_numbers
      | Except.error _ => none
    else dig_loop fuel rng2 s max_allowed_size (dig_numbers + 1)

/-- `Sudoku::generate`, with an explicit random stream and fuel (the
seeding loop, the digging loop and the restart recursion of the Rust
code are all unbounded; `none` models non-termination within `fuel`). -/
def generate : Nat → List Nat → Sudoku → Option Sudoku
  | 0, _, _ => none
  | fuel + 1, rng, s =>
    let s0 := reset s
    let max_allowed_size := s0.block_size - 2
    let grid_cell_size := s0.block_size ^ 2
    match seed_loop fuel rng s0 s0.mode.lower_size with
    | none => none
    | some (s1, rng1) =>
      match solve s1 with
      | (some _, s2) =>
        let (d, rng2) := nextRange rng1 s2.mode.lower_size s2.mode.higher_size
        match dig_loop fuel rng2 s2 max_allowed_size (grid_cell_size - d) with
        | none => none
        | some (s3, _) => some s3
      | (none, s2) => generate fuel rng1 s2

/-- `Difficulty` from src/main.rs. -/
inductive Difficulty where
  | easy
  | medium
  | hard
deriving DecidableEq, Repr

/-- `Difficulty::get_cell_ranges` from src/main.rs. -/
def get_cell_ranges : Difficulty → Nat × Nat
  | Difficulty.easy => (40, 81)
  | Difficulty.medium => (25, 39)
  | Difficulty.hard => (17, 24)

/-- The retry loop of `gen_board_with_difficulty` from src/main.rs.
`boards k` stands for the randomized result of the `k`-th
`Sudoku::generate` call; `fuel` counts the remaining retries
(`max_attempts - attempts - 1`). -/
def gb_loop (boards : Nat → Sudoku) (d : Difficulty) : Nat → Nat → Sudoku
  | fuel, i =>
    let sudoku := boards i
    let count := get_count sudoku
    let r := get_cell_ranges d
    if r.1 ≤ count ∧ count ≤ r.2 then sudoku
    else
      match fuel with
      | 0 => sudoku
      | fuel' + 1 => gb_loop boards d fuel' (i + 1)

/-- `gen_board_with_difficulty` from src/main.rs (`max_attempts = 100`),
returning the board handed back to the caller. -/
def gen_board_with_difficulty (boards : Nat → Sudoku) (d : Difficulty) : Sudoku :=
  gb_loop boards d 99 0

/-- The grid validity invariant of the spec (§3): every nonzero cell
value is unique within its row, its column, and its containing block. -/
def valid (s : Sudoku) : Prop :=
  ∀ x1 < s.block_size, ∀ y1 < s.block_size, ∀ x2 < s.block_size, ∀ y2 < s.block_size,
    ((x1 ≠ x2 ∨ y1 ≠ y2) ∧
     (y1 = y2 ∨ x1 = x2 ∨
       (x1 / s.mode.width = x2 / s.mode.width ∧ y1 / s.mode.height = y2 / s.mode.height)) ∧
     get s x1 y1 ≠ 0) →
    get s x1 y1 ≠ get s x2 y2

set_option synthInstance.maxSize 4000 in
instance valid.instDecidable (s : Sudoku) : Decidable (valid s) := by
  unfold valid
  infer_instance

/-- Structural well-formedness of a `Sudoku` value, as established by
`Sudoku::new`: a square grid of side `block_size = width * height` and
the digit list `1..=block_size`. -/
def WF (s : Sudoku) : Prop :=
  s.grid.length = s.block_size ∧
  (∀ i < s.block_size, (s.grid.getD i []).length = s.block_size) ∧
  s.block_size = s.mode.width * s.mode.height ∧
  s.numbers = List.range' 1 s.block_size ∧
  0 < s.mode.width ∧ 0 < s.mode.height

instance WF.instDecidable (s : Sudoku) : Decidable (WF s) := by
  unfold WF
  infer_instance

/-! ### Concrete fixtures used by witnesses and counterexamples -/

/-- The 4-mode of the registry. -/
def mode4 : ModeType := ⟨2, 2, 4, 8⟩

/-- The 9-mode of the registry. -/
def mode9 : ModeType := ⟨3, 3, 17, 40⟩

/-- A blank 4-Sudoku, as built by `Sudoku::new(None, Some("4"))`. -/
def blank4s : Sudoku := ⟨default_grid 4, mode4, 4, List.range' 1 4⟩

/-- A blank 9-Sudoku, as built by `Sudoku::new(None, Some("9"))`. -/
def blank9s : Sudoku := ⟨default_grid 9, mode9, 9, List.range' 1 9⟩

/-- A valid 4-grid whose cell (0,0) has the block-only candidate set
`[4]` while digit 4 already sits in row 0 at column 3. -/
def c1s : Sudoku := ⟨[[0,2,0,4],[1,3,0,0],[0,0,0,0],[0,0,0,0]], mode4, 4, List.range' 1 4⟩

/-- A valid but unsolvable 4-grid: cell (0,0) is empty and has an empty
candidate set (row 0 forbids 2,3,4 and its block and column forbid 1). -/
def c4s : Sudoku := ⟨[[0,2,3,4],[1,0,0,0],[0,0,0,0],[0,0,0,0]], mode4, 4, List.range' 1 4⟩

/-- A valid 4-grid with a single empty cell at (0,0). -/
def c6s : Sudoku := ⟨[[0,2,3,4],[3,4,1,2],[2,1,4,3],[4,3,2,1]], mode4, 4, List.range' 1 4⟩

/-- A fully filled but invalid 4-grid (all cells hold 1). -/
def allOnes4 : Sudoku := ⟨[[1,1,1,1],[1,1,1,1],[1,1,1,1],[1,1,1,1]], mode4, 4, List.range' 1 4⟩

/-- A pre-drawn random stream under which the seeding loop of
`generate` on a blank 4-grid overwrites cell (0,0) and terminates with
only 3 nonzero cells. -/
def c5rng : List Nat := [0,0,0, 0,0,0, 2,0,0, 0,2,0]

/-- The state produced by `seed_loop` on `blank4s` under `c5rng`. -/
def c5seeded : Sudoku := ⟨[[2,0,1,0],[0,0,0,0],[1,0,0,0],[0,0,0,0]], mode4, 4, List.range' 1 4⟩

/-! ### List helper lemmas -/

theorem getD_set_self {α : Type _} (l : List α) (i : Nat) (a d : α) (h : i < l.length) :
    (l.set i a).getD i d = a := by
  rw [List.getD_eq_getElem?_getD, List.getElem?_set_self h]
  rfl

theorem getD_set_ne {α : Type _} (l : List α) {i j : Nat} (a d : α) (h : i ≠ j) :
    (l.set i a).getD j d = l.getD j d := by
  rw [List.getD_eq_getElem?_getD, List.getElem?_set_ne h, ← List.getD_eq_getElem?_getD]

theorem set_self {α : Type _} (l : List α) (i : Nat) (h : i < l.length) :
    l.set i l[i] = l := by
  apply List.ext_getElem?
  intro n
  by_cases hn : n = i
  · subst hn
    rw [List.getElem?_set_self h, List.getElem?_eq_getElem h]
  · rw [List.getElem?_set_ne (fun he => hn he.symm)]

theorem set_getD_self {α : Type _} (l : List α) (i : Nat) (d : α) :
    l.set i (l.getD i d) = l := by
  by_cases h : i < l.length
  · rw [List.getD_eq_getElem l d h]
    exact set_self l i h
  · exact List.set_eq_of_length_le (Nat.le_of_not_lt h)

theorem getD_mem {α : Type _} (l : List α) (i : Nat) (d : α) (h : i < l.length) :
    l.getD i d ∈ l := by
  rw [List.getD_eq_getElem l d h]
  exact List.getElem_mem h

theorem getD_map {α β : Type _} (f : α → β) (l : List α) (i : Nat) (d : β) (d' : α)
    (h : i < l.length) : (l.map f).getD i d = f (l.getD i d') := by
  have hm : i < (l.map f).length := by
    rw [List.length_map]; exact h
  rw [List.getD_eq_getElem _ d hm, List.getD_eq_getElem l d' h, List.getElem_map]

theorem contains_true_iff (l : List Nat) (a : Nat) : l.contains a = true ↔ a ∈ l := by
  unfold List.contains
  exact List.elem_iff

/-! ### Cell update lemmas -/

theorem writeCell_mode (s : Sudoku) (x y v : Nat) : (writeCell s x y v).mode = s.mode := rfl

theorem writeCell_block_size (s : Sudoku) (x y v : Nat) :
    (writeCell s x y v).block_size = s.block_size := rfl

theorem writeCell_numbers (s : Sudoku) (x y v : Nat) :
    (writeCell s x y v).numbers = s.numbers := rfl

theorem writeCell_grid_length (s : Sudoku) (x y v : Nat) :
    (writeCell s x y v).grid.length = s.grid.length := by
  unfold writeCell
  exact List.length_set s.grid y _

theorem get_writeCell_ne (s : Sudoku) {x y x' y' : Nat} (v : Nat)
    (h : (x', y') ≠ (x, y)) : get (writeCell s x y v) x' y' = get s x' y' := by
  unfold get writeCell
  by_cases hy : y' = y
  · subst hy
    have hx : x' ≠ x := fun he => h (by rw [he])
    by_cases hlen : y' < s.grid.length
    · rw [getD_set_self s.grid y' _ [] hlen, getD_set_ne _ _ _ (fun he => hx he.symm)]
    · rw [List.set_eq_of_length_le (Nat.le_of_not_lt hlen)]
  · rw [getD_set_ne s.grid _ _ (fun he => hy he.symm)]

theorem get_writeCell_in (s : Sudoku) (x y v : Nat) (hy : y < s.grid.length)
    (hx : x < (s.grid.getD y []).length) : get (writeCell s x y v) x y = v := by
  unfold get writeCell
  rw [getD_set_self s.grid y _ [] hy, getD_set_self _ x v 0 hx]

theorem get_writeCell_zero (s : Sudoku) (x y : Nat) : get (writeCell s x y 0) x y = 0 := by
  by_cases hy : y < s.grid.length
  · by_cases hx : x < (s.grid.getD y []).length
    · exact get_writeCell_in s x y 0 hy hx
    · unfold get writeCell
      rw [getD_set_self s.grid y _ [] hy, List.set_eq_of_length_le (Nat.le_of_not_lt hx),
        List.getD_eq_getElem?_getD, List.getElem?_eq_none (Nat.le_of_not_lt hx)]
      rfl
  · unfold get writeCell
    rw [List.set_eq_of_length_le (Nat.le_of_not_lt hy)]
    show (s.grid.getD y []).getD x 0 = 0
    rw [List.getD_eq_getElem?_getD s.grid, List.getElem?_eq_none (Nat.le_of_not_lt hy)]
    rfl

theorem writeCell_writeCell (s : Sudoku) (x y a b : Nat) :
    writeCell (writeCell s x y a) x y b = writeCell s x y b := by
  unfold writeCell
  by_cases hy : y < s.grid.length
  · simp only
    rw [getD_set_self s.grid y _ [] hy, List.set_set, List.set_set]
  · rw [List.set_eq_of_length_le (Nat.le_of_not_lt hy)]

theorem mem_allowed_row {s : Sudoku} {y v : Nat} :
    v ∈ allowed_numbers_in_row s y ↔ v ∈ s.numbers ∧ v ∉ row s y := by
  unfold allowed_numbers_in_row
  rw [List.mem_filter]
  simp [contains_true_iff]

theorem mem_allowed_column {s : Sudoku} {x v : Nat} :
    v ∈ allowed_numbers_in_column s x ↔ v ∈ s.numbers ∧ v ∉ column s x := by
  unfold allowed_numbers_in_column
  rw [List.mem_filter]
  simp [contains_true_iff]

theorem mem_allowed_block {s : Sudoku} {x y v : Nat} :
    v ∈ allowed_numbers_in_block s x y ↔ v ∈ s.numbers ∧ v ∉ blockValues s x y := by
  unfold allowed_numbers_in_block
  rw [List.mem_filter]
  simp [contains_true_iff]

/-- Either branch of `allowed_numbers` only yields members of the
block-only candidate set; the intersection branch additionally yields
members of the row and column candidate sets. -/
theorem mem_allowed_numbers_elim {s : Sudoku} {x y v : Nat}
    (h : v ∈ allowed_numbers s x y) :
    v ∈ allowed_numbers_in_block s x y ∧
    (1 < (allowed_numbers_in_block s x y).length →
      v ∈ allowed_numbers_in_row s y ∧ v ∈ allowed_numbers_in_column s x) := by
  unfold allowed_numbers at h
  by_cases hl : 1 < (allowed_numbers_in_block s x y).length
  · rw [if_pos hl, List.mem_filter] at h
    refine ⟨h.1, fun _ => ?_⟩
    have hb := h.2
    rw [Bool.and_eq_true, contains_true_iff, contains_true_iff] at hb
    exact hb
  · rw [if_neg hl] at h
    exact ⟨h, fun hc => absurd hc hl⟩

theorem get_mem_row {s : Sudoku} (hWF : WF s) {x y : Nat} (hy : y < s.block_size)
    (hx : x < s.block_size) : get s x y ∈ row s y := by
  have hlen : (row s y).length = s.block_size := hWF.2.1 y hy
  exact getD_mem (row s y) x 0 (by rw [hlen]; exact hx)

theorem get_mem_column {s : Sudoku} (hWF : WF s) {x y : Nat} (hy : y < s.block_size) :
    get s x y ∈ column s x := by
  have hy' : y < s.grid.length := by rw [hWF.1]; exact hy
  have : get s x y = (column s x).getD y 0 := by
    unfold get column
    rw [getD_map (fun r => r.getD x 0) s.grid y 0 [] hy']
  rw [this]
  exact getD_mem _ y 0 (by unfold column; rw [List.length_map]; exact hy')

theorem get_mem_blockValues {s : Sudoku} {x y x2 y2 : Nat}
    (hbx : x2 / s.mode.width = x / s.mode.width)
    (hby : y2 / s.mode.height = y / s.mode.height)
    (hw : 0 < s.mode.width) (hh : 0 < s.mode.height) :
    get s x2 y2 ∈ blockValues s x y := by
  have hx2 : (x / s.mode.width) * s.mode.width + x2 % s.mode.width = x2 := by
    rw [← hbx, Nat.mul_comm]
    exact Nat.div_add_mod x2 s.mode.width
  have hy2 : (y / s.mode.height) * s.mode.height + y2 % s.mode.height = y2 := by
    rw [← hby, Nat.mul_comm]
    exact Nat.div_add_mod y2 s.mode.height
  simp only [blockValues]
  rw [List.mem_flatten]
  refine ⟨(List.range s.mode.height).map
      (fun j => get s ((x / s.mode.width) * s.mode.width + x2 % s.mode.width)
        ((y / s.mode.height) * s.mode.height + j)), ?_, ?_⟩
  · rw [List.mem_map]
    exact ⟨x2 % s.mode.width, List.mem_range.2 (Nat.mod_lt x2 hw), rfl⟩
  · rw [List.mem_map]
    refine ⟨y2 % s.mode.height, List.mem_range.2 (Nat.mod_lt y2 hh), ?_⟩
    rw [hx2, hy2]

theorem writeCell_zero_self (s : Sudoku) (x y : Nat) (h : get s x y = 0) :
    writeCell s x y 0 = s := by
  unfold writeCell
  by_cases hy : y < s.grid.length
  · by_cases hx : x < (s.grid.getD y []).length
    · unfold get at h
      have : (s.grid.getD y []).set x 0 = s.grid.getD y [] := by
        conv_lhs => rw [← h]
        exact set_getD_self _ x 0
      rw [this, set_getD_self s.grid y []]
    · rw [List.set_eq_of_length_le (Nat.le_of_not_lt hx), set_getD_self s.grid y []]
  · rw [List.set_eq_of_length_le (Nat.le_of_not_lt hy)]

/-! ### Characterization of `set` -/

theorem bnotc_true {l : List Nat} {a : Nat} (h : a ∉ l) : (!(l.contains a)) = true := by
  simp [contains_true_iff, h]

theorem bnotc_not_true {l : List Nat} {a : Nat} (h : a ∈ l) : ¬((!(l.contains a)) = true) := by
  simp [contains_true_iff, h]

theorem set_zero (s : Sudoku) (x y : Nat) : set s x y 0 = Except.ok (writeCell s x y 0) := by
  simp [set]

theorem set_eq_val {s : Sudoku} {x y v : Nat} (h0 : 0 < v) (he : get s x y = v) :
    set s x y v = Except.ok s := by
  simp [set, h0, he]

theorem set_ok_write {s : Sudoku} {x y v : Nat} (h0 : 0 < v) (hne : get s x y ≠ v)
    (hr : v ∈ allowed_numbers_in_row s y) (hc : v ∈ allowed_numbers_in_column s x)
    (hb : v ∈ allowed_numbers_in_block s x y) :
    set s x y v = Except.ok (writeCell s x y v) := by
  unfold set
  rw [if_pos h0, if_neg hne, if_neg (bnotc_not_true hr), if_neg (bnotc_not_true hc),
    if_neg (bnotc_not_true hb)]

theorem set_err_row {s : Sudoku} {x y v : Nat} (h0 : 0 < v) (hne : get s x y ≠ v)
    (hr : v ∉ allowed_numbers_in_row s y) :
    set s x y v =
      Except.error (toString v ++ " is not allowed in the row " ++ toString y) := by
  unfold set
  rw [if_pos h0, if_neg hne, if_pos (bnotc_true hr)]

theorem set_err_column {s : Sudoku} {x y v : Nat} (h0 : 0 < v) (hne : get s x y ≠ v)
    (hr : v ∈ allowed_numbers_in_row s y) (hc : v ∉ allowed_numbers_in_column s x) :
    set s x y v =
      Except.error (toString v ++ " is not allowed in the column " ++ toString x) := by
  unfold set
  rw [if_pos h0, if_neg hne, if_neg (bnotc_not_true hr), if_pos (bnotc_true hc)]

theorem set_err_block {s : Sudoku} {x y v : Nat} (h0 : 0 < v) (hne : get s x y ≠ v)
    (hr : v ∈ allowed_numbers_in_row s y) (hc : v ∈ allowed_numbers_in_column s x)
    (hb : v ∉ allowed_numbers_in_block s x y) :
    set s x y v = Except.error (toString v ++ " is not allowed in the block") := by
  unfold set
  rw [if_pos h0, if_neg hne, if_neg (bnotc_not_true hr), if_neg (bnotc_not_true hc),
    if_pos (bnotc_true hb)]

/-- Complete case analysis of a successful `set`. -/
theorem set_ok_cases {s : Sudoku} {x y v : Nat} {s' : Sudoku}
    (h : set s x y v = Except.ok s') :
    (v = 0 ∧ s' = writeCell s x y 0) ∨
    (0 < v ∧ get s x y = v ∧ s' = s) ∨
    (0 < v ∧ get s x y ≠ v ∧
      v ∈ allowed_numbers_in_row s y ∧ v ∈ allowed_numbers_in_column s x ∧
      v ∈ allowed_numbers_in_block s x y ∧ s' = writeCell s x y v) := by
  unfold set at h
  by_cases h0 : 0 < v
  · rw [if_pos h0] at h
    by_cases he : get s x y = v
    · rw [if_pos he] at h
      injection h with h
      exact Or.inr (Or.inl ⟨h0, he, h.symm⟩)
    · rw [if_neg he] at h
      by_cases hr : v ∈ allowed_numbers_in_row s y
      · rw [if_neg (bnotc_not_true hr)] at h
        by_cases hc : v ∈ allowed_numbers_in_column s x
        · rw [if_neg (bnotc_not_true hc)] at h
          by_cases hb : v ∈ allowed_numbers_in_block s x y
          · rw [if_neg (bnotc_not_true hb)] at h
            injection h with h
            exact Or.inr (Or.inr ⟨h0, he, hr, hc, hb, h.symm⟩)
          · rw [if_pos (bnotc_true hb)] at h
            exact Except.noConfusion h
        · rw [if_pos (bnotc_true hc)] at h
          exact Except.noConfusion h
      · rw [if_pos (bnotc_true hr)] at h
        exact Except.noConfusion h
  · rw [if_neg h0] at h
    injection h with h
    exact Or.inl ⟨Nat.eq_zero_of_not_pos h0, by rw [← h, Nat.eq_zero_of_not_pos h0]⟩

/-! ### Preservation of well-formedness and validity -/

theorem WF_writeCell {s : Sudoku} (hWF : WF s) (x y v : Nat) : WF (writeCell s x y v) := by
  obtain ⟨hlen, hrows, hbs, hnums, hw, hh⟩ := hWF
  refine ⟨?_, ?_, hbs, hnums, hw, hh⟩
  · rw [writeCell_block_size, writeCell_grid_length, hlen]
  · intro i hi
    rw [writeCell_block_size] at hi
    show ((s.grid.set y ((s.grid.getD y []).set x v)).getD i []).length = _
    by_cases hiy : i = y
    · subst hiy
      rw [getD_set_self s.grid i _ [] (by rw [hlen]; exact hi), List.length_set]
      exact hrows i hi
    · rw [getD_set_ne s.grid _ [] (fun he => hiy he.symm)]
      exact hrows i hi

theorem valid_writeCell_zero {s : Sudoku} (hv : valid s) (x y : Nat) :
    valid (writeCell s x y 0) := by
  intro x1 hx1 y1 hy1 x2 hx2 y2 hy2 hcond
  rw [writeCell_block_size] at hx1 hy1 hx2 hy2
  obtain ⟨hd, hsc, hnz⟩ := hcond
  rw [writeCell_mode] at hsc
  by_cases hp1 : (x1, y1) = (x, y)
  · rw [show x1 = x from congrArg Prod.fst hp1, show y1 = y from congrArg Prod.snd hp1,
      get_writeCell_zero] at hnz
    exact absurd rfl hnz
  · rw [get_writeCell_ne s 0 hp1] at hnz ⊢
    by_cases hp2 : (x2, y2) = (x, y)
    · rw [show x2 = x from congrArg Prod.fst hp2, show y2 = y from congrArg Prod.snd hp2,
        get_writeCell_zero]
      exact hnz
    · rw [get_writeCell_ne s 0 hp2]
      exact hv x1 hx1 y1 hy1 x2 hx2 y2 hy2 ⟨hd, hsc, hnz⟩

theorem set_ok_valid {s s' : Sudoku} (hWF : WF s) (hv : valid s) {x y v : Nat}
    (hx : x < s.block_size) (hy : y < s.block_size)
    (h : set s x y v = Except.ok s') : valid s' := by
  rcases set_ok_cases h with ⟨_, hs'⟩ | ⟨_, _, hs'⟩ | ⟨h0, _, hr, hc, hb, hs'⟩
  · rw [hs']
    exact valid_writeCell_zero hv x y
  · rw [hs']
    exact hv
  · subst hs'
    have hvr : v ∉ row s y := (mem_allowed_row.1 hr).2
    have hvc : v ∉ column s x := (mem_allowed_column.1 hc).2
    have hvb : v ∉ blockValues s x y := (mem_allowed_block.1 hb).2
    have hgy : y < s.grid.length := by rw [hWF.1]; exact hy
    have hgx : x < (s.grid.getD y []).length := by rw [hWF.2.1 y hy]; exact hx
    intro x1 hx1 y1 hy1 x2 hx2 y2 hy2 hcond
    rw [writeCell_block_size] at hx1 hy1 hx2 hy2
    obtain ⟨hd, hsc, hnz⟩ := hcond
    rw [writeCell_mode] at hsc
    by_cases hp1 : (x1, y1) = (x, y)
    · injection hp1 with hx1e hy1e
      by_cases hp2 : (x2, y2) = (x, y)
      · injection hp2 with hx2e hy2e
        rcases hd with hdx | hdy
        · exact absurd (hx1e.trans hx2e.symm) hdx
        · exact absurd (hy1e.trans hy2e.symm) hdy
      · rw [hx1e, hy1e, get_writeCell_in s x y v hgy hgx, get_writeCell_ne s v hp2]
        intro heq
        rcases hsc with hrow | hcol | hblk
        · have hyy : y2 = y := hrow.symm.trans hy1e
          refine hvr ?_
          rw [heq, ← hyy]
          exact get_mem_row hWF hy2 hx2
        · have hxx : x2 = x := hcol.symm.trans hx1e
          refine hvc ?_
          rw [heq, ← hxx]
          exact get_mem_column hWF hy2
        · refine hvb ?_
          rw [heq]
          exact get_mem_blockValues
            (by rw [← hblk.1, hx1e]) (by rw [← hblk.2, hy1e]) hWF.2.2.2.2.1 hWF.2.2.2.2.2
    · rw [get_writeCell_ne s v hp1] at hnz ⊢
      by_cases hp2 : (x2, y2) = (x, y)
      · injection hp2 with hx2e hy2e
        rw [hx2e, hy2e, get_writeCell_in s x y v hgy hgx]
        intro heq
        rcases hsc with hrow | hcol | hblk
        · have hyy : y1 = y := hrow.trans hy2e
          refine hvr ?_
          rw [← heq, ← hyy]
          exact get_mem_row hWF hy1 hx1
        · have hxx : x1 = x := hcol.trans hx2e
          refine hvc ?_
          rw [← heq, ← hxx]
          exact get_mem_column hWF hy1
        · refine hvb ?_
          rw [← heq]
          exact get_mem_blockValues
            (by rw [hblk.1, hx2e]) (by rw [hblk.2, hy2e]) hWF.2.2.2.2.1 hWF.2.2.2.2.2
      · rw [get_writeCell_ne s v hp2]
        exact hv x1 hx1 y1 hy1 x2 hx2 y2 hy2 ⟨hd, hsc, hnz⟩

theorem set_ok_WF {s s' : Sudoku} (hWF : WF s) {x y v : Nat}
    (h : set s x y v = Except.ok s') : WF s' := by
  rcases set_ok_cases h with ⟨_, hs'⟩ | ⟨_, _, hs'⟩ | ⟨_, _, _, _, _, hs'⟩ <;>
    rw [hs'] <;> first | exact WF_writeCell hWF _ _ _ | exact hWF

/-! ### Empty-cell selection lemmas -/

theorem mem_empty_cells {s : Sudoku} {c : Nat × Nat} (h : c ∈ empty_cells s) :
    c.2 < s.grid.length ∧ c.1 < (s.grid.getD c.2 []).length ∧ get s c.1 c.2 = 0 := by
  unfold empty_cells at h
  rw [List.mem_flatten] at h
  obtain ⟨L, hL, hcL⟩ := h
  rw [List.mem_map] at hL
  obtain ⟨y, hy, rfl⟩ := hL
  rw [List.mem_range] at hy
  rw [List.mem_filterMap] at hcL
  obtain ⟨x, hx, hxc⟩ := hcL
  rw [List.mem_range] at hx
  by_cases h0 : (s.grid.getD y []).getD x 0 = 0
  · rw [if_pos h0] at hxc
    injection hxc with hxc
    subst hxc
    exact ⟨hy, hx, h0⟩
  · rw [if_neg h0] at hxc
    exact Option.noConfusion hxc

theorem aec_loop_mem {s : Sudoku} :
    ∀ (l : List (Nat × Nat)) (m : Nat) (res : Option (Nat × Nat)) (c : Nat × Nat),
      aec_loop s l m res = some c → c ∈ l ∨ res = some c := by
  intro l
  induction l with
  | nil => intro m res c h; exact Or.inr h
  | cons a t ih =>
    intro m res c h
    simp only [aec_loop] at h
    by_cases h1 : (allowed_numbers s a.1 a.2).length = 1
    · rw [if_pos h1] at h
      by_cases hlt : (allowed_numbers s a.1 a.2).length < m
      · rw [if_pos hlt] at h
        injection h with h
        exact Or.inl (h ▸ List.mem_cons_self a t)
      · rw [if_neg hlt] at h
        exact Or.inr h
    · rw [if_neg h1] at h
      rcases ih _ _ _ h with hc | hc
      · exact Or.inl (List.mem_cons_of_mem a hc)
      · by_cases hlt : (allowed_numbers s a.1 a.2).length < m
        · rw [if_pos hlt] at hc
          injection hc with hc
          exact Or.inl (hc ▸ List.mem_cons_self a t)
        · rw [if_neg hlt] at hc
          exact Or.inr hc

theorem any_empty_cell_some {s : Sudoku} {c : Nat × Nat}
    (h : any_empty_cell s none = some c) :
    c.2 < s.grid.length ∧ c.1 < (s.grid.getD c.2 []).length ∧ get s c.1 c.2 = 0 := by
  unfold any_empty_cell at h
  rcases aec_loop_mem _ _ _ _ h with hm | hr
  · exact mem_empty_cells hm
  · exact Option.noConfusion hr

/-! ### Parameterized lemmas about the value loop of the solver -/

/-- The three fields of `Sudoku` other than the grid. -/
def shapeEq (t u : Sudoku) : Prop :=
  u.mode = t.mode ∧ u.block_size = t.block_size ∧ u.numbers = t.numbers

theorem shapeEq_refl (t : Sudoku) : shapeEq t t := ⟨rfl, rfl, rfl⟩

theorem shapeEq_trans {t u w : Sudoku} (h1 : shapeEq t u) (h2 : shapeEq u w) :
    shapeEq t w :=
  ⟨h2.1.trans h1.1, h2.2.1.trans h1.2.1, h2.2.2.trans h1.2.2⟩

theorem shapeEq_writeCell (t : Sudoku) (x y v : Nat) : shapeEq t (writeCell t x y v) :=
  ⟨rfl, rfl, rfl⟩

theorem shapeEq_set_ok {s s' : Sudoku} {x y v : Nat} (h : set s x y v = Except.ok s') :
    shapeEq s s' := by
  rcases set_ok_cases h with ⟨_, hs'⟩ | ⟨_, _, hs'⟩ | ⟨_, _, _, _, _, hs'⟩ <;> rw [hs']
  · exact shapeEq_writeCell s x y 0
  · exact shapeEq_refl s
  · exact shapeEq_writeCell s x y v

/-- Unfolding equation: a failing `set` clears the cell and moves on. -/
theorem try_values_cons_err {step : Sudoku → Bool × Sudoku} {x y v : Nat} {vs : List Nat}
    {s : Sudoku} {e : String} (hset : set s x y v = Except.error e) :
    try_values step x y s (v :: vs) = try_values step x y (writeCell s x y 0) vs := by
  simp only [try_values, hset]

/-- Unfolding equation: a successful `set` followed by a successful
recursive call returns immediately. -/
theorem try_values_cons_ok_true {step : Sudoku → Bool × Sudoku} {x y v : Nat} {vs : List Nat}
    {s s1 s2 : Sudoku} (hset : set s x y v = Except.ok s1) (hstep2 : step s1 = (true, s2)) :
    try_values step x y s (v :: vs) = (true, s2) := by
  simp only [try_values, hset, hstep2]

/-- Unfolding equation: a successful `set` followed by a failed
recursive call clears the cell and moves on. -/
theorem try_values_cons_ok_false {step : Sudoku → Bool × Sudoku} {x y v : Nat} {vs : List Nat}
    {s s1 s2 : Sudoku} (hset : set s x y v = Except.ok s1) (hstep2 : step s1 = (false, s2)) :
    try_values step x y s (v :: vs) = try_values step x y (writeCell s2 x y 0) vs := by
  simp only [try_values, hset, hstep2]

theorem try_values_shape {step : Sudoku → Bool × Sudoku}
    (hstep : ∀ t, shapeEq t (step t).2) (x y : Nat) :
    ∀ (l : List Nat) (s : Sudoku), shapeEq s (try_values step x y s l).2 := by
  intro l
  induction l with
  | nil => intro s; exact shapeEq_refl s
  | cons v vs ih =>
    intro s
    cases hset : set s x y v with
    | error e =>
      rw [try_values_cons_err hset]
      exact shapeEq_trans (shapeEq_writeCell s x y 0) (ih _)
    | ok s1 =>
      rcases hstep2 : step s1 with ⟨b, s2⟩
      have hss1 : shapeEq s s1 := shapeEq_set_ok hset
      have hs1s2 : shapeEq s1 s2 := by
        have := hstep s1
        rw [hstep2] at this
        exact this
      cases b with
      | true =>
        rw [try_values_cons_ok_true hset hstep2]
        exact shapeEq_trans hss1 hs1s2
      | false =>
        rw [try_values_cons_ok_false hset hstep2]
        exact shapeEq_trans hss1 (shapeEq_trans hs1s2
          (shapeEq_trans (shapeEq_writeCell s2 x y 0) (ih _)))

/-- Unfolding equation: a full grid is an immediate success. -/
theorem su_succ_solved {fuel : Nat} {s : Sudoku} (hsol : is_solved s = true) :
    solve_ultimately (fuel + 1) s = (true, s) := by
  simp only [solve_ultimately, hsol, if_true]

/-- Unfolding equation: branch on the selected empty cell. -/
theorem su_succ_cell {fuel : Nat} {s : Sudoku} {x y : Nat} (hsol : is_solved s = false)
    (hcell : any_empty_cell s none = some (x, y)) :
    solve_ultimately (fuel + 1) s =
      try_values (solve_ultimately fuel) x y s (allowed_numbers s x y) := by
  simp only [solve_ultimately, hsol, hcell, Bool.false_eq_true, if_false]

/-- Unfolding equation: no empty cell and not solved is a failure. -/
theorem su_succ_none {fuel : Nat} {s : Sudoku} (hsol : is_solved s = false)
    (hcell : any_empty_cell s none = none) :
    solve_ultimately (fuel + 1) s = (false, s) := by
  simp only [solve_ultimately, hsol, hcell, Bool.false_eq_true, if_false]

theorem solve_ultimately_shape :
    ∀ (fuel : Nat) (s : Sudoku), shapeEq s (solve_ultimately fuel s).2 := by
  intro fuel
  induction fuel with
  | zero => intro s; exact shapeEq_refl s
  | succ fuel ih =>
    intro s
    by_cases hsol : is_solved s
    · rw [su_succ_solved hsol]
      exact shapeEq_refl s
    · rw [Bool.not_eq_true] at hsol
      cases hcell : any_empty_cell s none with
      | none =>
        rw [su_succ_none hsol hcell]
        exact shapeEq_refl s
      | some c =>
        rcases c with ⟨x, y⟩
        rw [su_succ_cell hsol hcell]
        exact try_values_shape ih x y _ s

/-- A failed value loop restores the grid, provided the target cell is
empty and the recursive step restores on failure. -/
theorem try_values_restore {step : Sudoku → Bool × Sudoku}
    (hstep : ∀ t, (step t).1 = false → (step t).2 = t) (x y : Nat) :
    ∀ (l : List Nat) (s : Sudoku), get s x y = 0 →
      (try_values step x y s l).1 = false → (try_values step x y s l).2 = s := by
  intro l
  induction l with
  | nil => intro s _ _; rfl
  | cons v vs ih =>
    intro s h0 hf
    cases hset : set s x y v with
    | error e =>
      rw [try_values_cons_err hset] at hf ⊢
      rw [ih _ (get_writeCell_zero s x y) hf, writeCell_zero_self s x y h0]
    | ok s1 =>
      rcases hstep2 : step s1 with ⟨b, s2⟩
      cases b with
      | true =>
        rw [try_values_cons_ok_true hset hstep2] at hf
        exact absurd hf (by simp)
      | false =>
        rw [try_values_cons_ok_false hset hstep2] at hf ⊢
        have hs2 : s2 = s1 := by
          have := hstep s1
          rw [hstep2] at this
          exact this rfl
        have hback : writeCell s2 x y 0 = s := by
          rw [hs2]
          rcases set_ok_cases hset with ⟨_, hw⟩ | ⟨_, _, hw⟩ | ⟨_, _, _, _, _, hw⟩
          · rw [hw, writeCell_writeCell, writeCell_zero_self s x y h0]
          · rw [hw, writeCell_zero_self s x y h0]
          · rw [hw, writeCell_writeCell, writeCell_zero_self s x y h0]
        rw [hback] at hf ⊢
        exact ih s h0 hf

/-- A failed `solve_ultimately` restores the grid completely: every
loop iteration clears the tried cell, and the chosen cell was empty. -/
theorem solve_ultimately_restore :
    ∀ (fuel : Nat) (s : Sudoku), (solve_ultimately fuel s).1 = false →
      (solve_ultimately fuel s).2 = s := by
  intro fuel
  induction fuel with
  | zero => intro s _; rfl
  | succ fuel ih =>
    intro s hf
    by_cases hsol : is_solved s
    · rw [su_succ_solved hsol] at hf
      exact absurd hf (by simp)
    · rw [Bool.not_eq_true] at hsol
      cases hcell : any_empty_cell s none with
      | none => rw [su_succ_none hsol hcell]
      | some c =>
        rcases c with ⟨x, y⟩
        rw [su_succ_cell hsol hcell] at hf ⊢
        exact try_values_restore ih x y _ s (any_empty_cell_some hcell).2.2 hf

/-- The value loop preserves well-formedness and validity, given that
the recursive step does. -/
theorem try_values_wf_valid {step : Sudoku → Bool × Sudoku}
    (hshape : ∀ t, shapeEq t (step t).2)
    (hstep : ∀ t, WF t → valid t → WF (step t).2 ∧ valid (step t).2) (x y : Nat) :
    ∀ (l : List Nat) (s : Sudoku), WF s → valid s → x < s.block_size → y < s.block_size →
      WF (try_values step x y s l).2 ∧ valid (try_values step x y s l).2 := by
  intro l
  induction l with
  | nil => intro s hWF hv _ _; exact ⟨hWF, hv⟩
  | cons v vs ih =>
    intro s hWF hv hx hy
    cases hset : set s x y v with
    | error e =>
      rw [try_values_cons_err hset]
      exact ih (writeCell s x y 0) (WF_writeCell hWF x y 0) (valid_writeCell_zero hv x y)
        hx hy
    | ok s1 =>
      have hWF1 : WF s1 := set_ok_WF hWF hset
      have hv1 : valid s1 := set_ok_valid hWF hv hx hy hset
      have hsh1 : shapeEq s s1 := shapeEq_set_ok hset
      rcases hstep2 : step s1 with ⟨b, s2⟩
      have hwv2 := hstep s1 hWF1 hv1
      rw [hstep2] at hwv2
      have hsh2 : shapeEq s1 s2 := by
        have := hshape s1
        rw [hstep2] at this
        exact this
      cases b with
      | true =>
        rw [try_values_cons_ok_true hset hstep2]
        exact hwv2
      | false =>
        rw [try_values_cons_ok_false hset hstep2]
        refine ih (writeCell s2 x y 0) (WF_writeCell hwv2.1 x y 0)
          (valid_writeCell_zero hwv2.2 x y) ?_ ?_
        · rw [writeCell_block_size, hsh2.2.1, hsh1.2.1]
          exact hx
        · rw [writeCell_block_size, hsh2.2.1, hsh1.2.1]
          exact hy

/-- `solve_ultimately` preserves well-formedness and validity. -/
theorem solve_ultimately_wf_valid :
    ∀ (fuel : Nat) (s : Sudoku), WF s → valid s →
      WF (solve_ultimately fuel s).2 ∧ valid (solve_ultimately fuel s).2 := by
  intro fuel
  induction fuel with
  | zero => intro s hWF hv; exact ⟨hWF, hv⟩
  | succ fuel ih =>
    intro s hWF hv
    by_cases hsol : is_solved s
    · rw [su_succ_solved hsol]
      exact ⟨hWF, hv⟩
    · rw [Bool.not_eq_true] at hsol
      cases hcell : any_empty_cell s none with
      | none =>
        rw [su_succ_none hsol hcell]
        exact ⟨hWF, hv⟩
      | some c =>
        rcases c with ⟨x, y⟩
        rw [su_succ_cell hsol hcell]
        obtain ⟨hyb, hxb, _⟩ := any_empty_cell_some hcell
        rw [hWF.1] at hyb
        rw [hWF.2.1 y hyb] at hxb
        exact try_values_wf_valid (solve_ultimately_shape fuel) ih x y _ s hWF hv hxb hyb

/-- The value loop never changes a nonzero cell of its input state,
given that the recursive step does not, and the target cell is empty. -/
theorem try_values_frame {step : Sudoku → Bool × Sudoku}
    (hstep : ∀ t a b, get t a b ≠ 0 → get (step t).2 a b = get t a b) (x y : Nat) :
    ∀ (l : List Nat) (s : Sudoku), get s x y = 0 →
      ∀ a b, get s a b ≠ 0 → get (try_values step x y s l).2 a b = get s a b := by
  intro l
  induction l with
  | nil => intro s _ a b _; rfl
  | cons v vs ih =>
    intro s h0 a b hab
    have hne : (a, b) ≠ (x, y) := by
      intro he
      injection he with he1 he2
      rw [he1, he2, h0] at hab
      exact hab rfl
    cases hset : set s x y v with
    | error e =>
      rw [try_values_cons_err hset]
      rw [← get_writeCell_ne s (v := 0) hne] at hab ⊢
      exact ih (writeCell s x y 0) (get_writeCell_zero s x y) a b hab
    | ok s1 =>
      have hs1g : get s1 a b = get s a b := by
        rcases set_ok_cases hset with ⟨_, hw⟩ | ⟨_, _, hw⟩ | ⟨_, _, _, _, _, hw⟩ <;> rw [hw]
        · exact get_writeCell_ne s 0 hne
        · exact get_writeCell_ne s v hne
      rcases hstep2 : step s1 with ⟨b2, s2⟩
      have hs2g : get s2 a b = get s1 a b := by
        have := hstep s1 a b (by rw [hs1g]; exact hab)
        rw [hstep2] at this
        exact this
      cases b2 with
      | true =>
        rw [try_values_cons_ok_true hset hstep2]
        show get s2 a b = get s a b
        rw [hs2g, hs1g]
      | false =>
        rw [try_values_cons_ok_false hset hstep2]
        have hu : get (writeCell s2 x y 0) a b = get s a b := by
          rw [get_writeCell_ne s2 0 hne, hs2g, hs1g]
        rw [← hu] at hab ⊢
        exact ih (writeCell s2 x y 0) (get_writeCell_zero s2 x y) a b hab

/-- `solve_ultimately` never changes a nonzero cell of its input. -/
theorem solve_ultimately_frame :
    ∀ (fuel : Nat) (s : Sudoku) (a b : Nat), get s a b ≠ 0 →
      get (solve_ultimately fuel s).2 a b = get s a b := by
  intro fuel
  induction fuel with
  | zero => intro s a b _; rfl
  | succ fuel ih =>
    intro s a b hab
    by_cases hsol : is_solved s
    · rw [su_succ_solved hsol]
    · rw [Bool.not_eq_true] at hsol
      cases hcell : any_empty_cell s none with
      | none => rw [su_succ_none hsol hcell]
      | some c =>
        rcases c with ⟨x, y⟩
        rw [su_succ_cell hsol hcell]
        exact try_values_frame ih x y _ s (any_empty_cell_some hcell).2.2 a b hab

/-- A successful value loop hands back a fully filled grid, given that
a successful recursive step does. -/
theorem try_values_solved {step : Sudoku → Bool × Sudoku}
    (hstep : ∀ t, (step t).1 = true → is_solved (step t).2 = true) (x y : Nat) :
    ∀ (l : List Nat) (s : Sudoku), (try_values step x y s l).1 = true →
      is_solved (try_values step x y s l).2 = true := by
  intro l
  induction l with
  | nil => intro s h; exact absurd h (by simp [try_values])
  | cons v vs ih =>
    intro s h
    cases hset : set s x y v with
    | error e =>
      rw [try_values_cons_err hset] at h ⊢
      exact ih _ h
    | ok s1 =>
      rcases hstep2 : step s1 with ⟨b, s2⟩
      cases b with
      | true =>
        rw [try_values_cons_ok_true hset hstep2]
        have := hstep s1
        rw [hstep2] at this
        exact this rfl
      | false =>
        rw [try_values_cons_ok_false hset hstep2] at h ⊢
        exact ih _ h

/-- A successful `solve_ultimately` hands back a fully filled grid. -/
theorem solve_ultimately_solved :
    ∀ (fuel : Nat) (s : Sudoku), (solve_ultimately fuel s).1 = true →
      is_solved (solve_ultimately fuel s).2 = true := by
  intro fuel
  induction fuel with
  | zero => intro s h; exact absurd h (by simp [solve_ultimately])
  | succ fuel ih =>
    intro s h
    by_cases hsol : is_solved s
    · rw [su_succ_solved hsol]
      exact hsol
    · rw [Bool.not_eq_true] at hsol
      cases hcell : any_empty_cell s none with
      | none =>
        rw [su_succ_none hsol hcell] at h
        exact absurd h (by simp)
      | some c =>
        rcases c with ⟨x, y⟩
        rw [su_succ_cell hsol hcell] at h ⊢
        exact try_values_solved ih x y _ s h

/-! ### Corollaries about `solve` -/

theorem solve_eq (s : Sudoku) :
    solve s = (if (solve_ultimately (s.grid.flatten.length + 1) s).1 = true
                 then some (solve_ultimately (s.grid.flatten.length + 1) s).2.grid
                 else none,
               (solve_ultimately (s.grid.flatten.length + 1) s).2) := by
  unfold solve
  rcases h : solve_ultimately (s.grid.flatten.length + 1) s with ⟨b, t⟩
  cases b <;> simp

theorem solve_none_restore {s : Sudoku} (h : (solve s).1 = none) : (solve s).2 = s := by
  rw [solve_eq] at h ⊢
  by_cases hb : (solve_ultimately (s.grid.flatten.length + 1) s).1 = true
  · rw [if_pos hb] at h
    exact Option.noConfusion h
  · exact solve_ultimately_restore _ s (Bool.not_eq_true _ ▸ hb)

theorem solve_some_grid {s : Sudoku} {g : Grid} (h : (solve s).1 = some g) :
    g = (solve s).2.grid ∧ is_solved (solve s).2 = true := by
  rw [solve_eq] at h ⊢
  by_cases hb : (solve_ultimately (s.grid.flatten.length + 1) s).1 = true
  · rw [if_pos hb] at h
    injection h with h
    exact ⟨h.symm, solve_ultimately_solved _ s hb⟩
  · rw [if_neg hb] at h
    exact Option.noConfusion h

theorem solve_wf_valid {s : Sudoku} (hWF : WF s) (hv : valid s) :
    WF (solve s).2 ∧ valid (solve s).2 := by
  rw [solve_eq]
  exact solve_ultimately_wf_valid _ s hWF hv

theorem solve_frame {s : Sudoku} (a b : Nat) (h : get s a b ≠ 0) :
    get (solve s).2 a b = get s a b := by
  rw [solve_eq]
  exact solve_ultimately_frame _ s a b h

theorem solve_shape (s : Sudoku) : shapeEq s (solve s).2 := by
  rw [solve_eq]
  exact solve_ultimately_shape _ s

/-! ### Reset and counting lemmas -/

theorem getD_replicate {α : Type _} (n : Nat) (a d : α) (i : Nat) :
    (List.replicate n a).getD i d = if i < n then a else d := by
  rw [List.getD_eq_getElem?_getD, List.getElem?_replicate]
  by_cases h : i < n
  · rw [if_pos h, if_pos h]
    rfl
  · rw [if_neg h, if_neg h]
    rfl

theorem get_reset (s : Sudoku) (x y : Nat) : get (reset s) x y = 0 := by
  show ((List.replicate s.block_size (List.replicate s.block_size 0)).getD y []).getD x 0 = 0
  rw [getD_replicate]
  by_cases hy : y < s.block_size
  · rw [if_pos hy, getD_replicate]
    by_cases hx : x < s.block_size
    · rw [if_pos hx]
    · rw [if_neg hx]
  · rw [if_neg hy]
    rfl

theorem valid_reset (s : Sudoku) : valid (reset s) := by
  intro x1 _ y1 _ x2 _ y2 _ hcond
  exact absurd (get_reset s x1 y1) hcond.2.2

theorem WF_reset {s : Sudoku} (hWF : WF s) : WF (reset s) := by
  refine ⟨?_, ?_, hWF.2.2.1, hWF.2.2.2.1, hWF.2.2.2.2.1, hWF.2.2.2.2.2⟩
  · exact List.length_replicate s.block_size _
  · intro i hi
    show ((List.replicate s.block_size (List.replicate s.block_size 0)).getD i []).length =
      s.block_size
    rw [getD_replicate, if_pos (show i < s.block_size from hi), List.length_replicate]

theorem get_count_eq_countP (s : Sudoku) :
    get_count s = s.grid.flatten.countP (fun x => decide (x > 0)) := by
  unfold get_count
  rw [List.countP_eq_length_filter]

theorem countP_flatten (p : Nat → Bool) :
    ∀ (L : List (List Nat)), L.flatten.countP p = (L.map (fun r => r.countP p)).sum := by
  intro L
  induction L with
  | nil => rfl
  | cons a t ih =>
    rw [List.flatten_cons, List.countP_append, List.map_cons, List.sum_cons, ih]

theorem countP_set_le (p : Nat → Bool) (l : List Nat) (i v : Nat) :
    (l.set i v).countP p ≤ l.countP p + 1 := by
  by_cases h : i < l.length
  · rw [List.countP_set p l i v h]
    split_ifs <;> omega
  · rw [List.set_eq_of_length_le (Nat.le_of_not_lt h)]
    omega

theorem sum_map_countP_set_le (p : Nat → Bool) :
    ∀ (L : List (List Nat)) (y : Nat) (r' : List Nat),
      r'.countP p ≤ (L.getD y []).countP p + 1 →
      ((L.set y r').map (fun r => r.countP p)).sum ≤ (L.map (fun r => r.countP p)).sum + 1 := by
  intro L
  induction L with
  | nil => intro y r' _; simp
  | cons a t ih =>
    intro y r' h
    cases y with
    | zero =>
      rw [List.set_cons_zero, List.map_cons, List.map_cons, List.sum_cons, List.sum_cons]
      have : r'.countP p ≤ a.countP p + 1 := h
      omega
    | succ y =>
      rw [List.set_cons_succ, List.map_cons, List.map_cons, List.sum_cons, List.sum_cons]
      have := ih y r' h
      omega

theorem get_count_writeCell_le (s : Sudoku) (x y v : Nat) :
    get_count (writeCell s x y v) ≤ get_count s + 1 := by
  rw [get_count_eq_countP, get_count_eq_countP]
  show ((s.grid.set y ((s.grid.getD y []).set x v)).flatten).countP _ ≤ _
  rw [countP_flatten, countP_flatten]
  exact sum_map_countP_set_le _ s.grid y _ (countP_set_le _ _ x v)

theorem get_count_set_ok_le {s s' : Sudoku} {x y v : Nat}
    (h : set s x y v = Except.ok s') : get_count s' ≤ get_count s + 1 := by
  rcases set_ok_cases h with ⟨_, hw⟩ | ⟨_, _, hw⟩ | ⟨_, _, _, _, _, hw⟩ <;> rw [hw]
  · exact get_count_writeCell_le s x y 0
  · omega
  · exact get_count_writeCell_le s x y v

/-! ### Seeding, digging and generation lemmas -/

theorem seed_loop_zero_base (fuel : Nat) (rng : List Nat) (s : Sudoku) :
    seed_loop fuel rng s 0 = some (s, rng) := by
  cases fuel <;> rfl

theorem seed_loop_no_fuel (rng : List Nat) (s : Sudoku) (k : Nat) :
    seed_loop 0 rng s (k + 1) = none := rfl

theorem seed_loop_succ (fuel : Nat) (rng : List Nat) (s : Sudoku) (k : Nat) :
    seed_loop (fuel + 1) rng s (k + 1) =
      (if (allowed_numbers s (rng.headD 0 % s.block_size)
            (rng.tail.headD 0 % s.block_size)).length > s.block_size / 3 then
        match set s (rng.headD 0 % s.block_size) (rng.tail.headD 0 % s.block_size)
            ((allowed_numbers s (rng.headD 0 % s.block_size)
              (rng.tail.headD 0 % s.block_size)).getD
              (rng.tail.tail.headD 0 %
                (allowed_numbers s (rng.headD 0 % s.block_size)
                  (rng.tail.headD 0 % s.block_size)).length) 0) with
        | Except.ok s1 => seed_loop fuel rng.tail.tail.tail s1 k
        | Except.error _ => seed_loop fuel rng.tail.tail.tail s (k + 1)
      else seed_loop fuel rng.tail.tail s (k + 1)) := by
  rfl

/-- Each successful placement of the seeding loop raises the filled
count by at most one, so the loop adds at most `base_numbers` filled
cells in total (an accepted placement may overwrite a filled cell, so
the count can rise by strictly less). -/
theorem seed_loop_count :
    ∀ (fuel : Nat) (rng : List Nat) (s : Sudoku) (k : Nat) (out : Sudoku × List Nat),
      seed_loop fuel rng s k = some out → get_count out.1 ≤ get_count s + k := by
  intro fuel
  induction fuel with
  | zero =>
    intro rng s k out h
    cases k with
    | zero =>
      rw [seed_loop_zero_base] at h
      injection h with h
      rw [← h]
      show get_count s ≤ get_count s + 0
      omega
    | succ k =>
      rw [seed_loop_no_fuel] at h
      exact Option.noConfusion h
  | succ fuel ih =>
    intro rng s k out h
    cases k with
    | zero =>
      rw [seed_loop_zero_base] at h
      injection h with h
      rw [← h]
      show get_count s ≤ get_count s + 0
      omega
    | succ k =>
      rw [seed_loop_succ] at h
      by_cases hc : (allowed_numbers s (rng.headD 0 % s.block_size)
          (rng.tail.headD 0 % s.block_size)).length > s.block_size / 3
      · rw [if_pos hc] at h
        cases hset : set s (rng.headD 0 % s.block_size) (rng.tail.headD 0 % s.block_size)
            ((allowed_numbers s (rng.headD 0 % s.block_size)
              (rng.tail.headD 0 % s.block_size)).getD
              (rng.tail.tail.headD 0 %
                (allowed_numbers s (rng.headD 0 % s.block_size)
                  (rng.tail.headD 0 % s.block_size)).length) 0) with
        | ok s1 =>
          simp only [hset] at h
          have h1 := ih _ _ _ _ h
          have h2 := get_count_set_ok_le hset
          omega
        | error e =>
          simp only [hset] at h
          have h1 := ih _ _ _ _ h
          omega
      · rw [if_neg hc] at h
        have h1 := ih _ _ _ _ h
        omega

/-- The seeding loop preserves well-formedness and validity. -/
theorem seed_loop_wf_valid :
    ∀ (fuel : Nat) (rng : List Nat) (s : Sudoku) (k : Nat) (out : Sudoku × List Nat),
      WF s → valid s → seed_loop fuel rng s k = some out →
      WF out.1 ∧ valid out.1 := by
  intro fuel
  induction fuel with
  | zero =>
    intro rng s k out hWF hv h
    cases k with
    | zero =>
      rw [seed_loop_zero_base] at h
      injection h with h
      rw [← h]
      exact ⟨hWF, hv⟩
    | succ k =>
      rw [seed_loop_no_fuel] at h
      exact Option.noConfusion h
  | succ fuel ih =>
    intro rng s k out hWF hv h
    cases k with
    | zero =>
      rw [seed_loop_zero_base] at h
      injection h with h
      rw [← h]
      exact ⟨hWF, hv⟩
    | succ k =>
      have hN : 0 < s.block_size := by
        rw [hWF.2.2.1]
        exact Nat.mul_pos hWF.2.2.2.2.1 hWF.2.2.2.2.2
      rw [seed_loop_succ] at h
      by_cases hc : (allowed_numbers s (rng.headD 0 % s.block_size)
          (rng.tail.headD 0 % s.block_size)).length > s.block_size / 3
      · rw [if_pos hc] at h
        cases hset : set s (rng.headD 0 % s.block_size) (rng.tail.headD 0 % s.block_size)
            ((allowed_numbers s (rng.headD 0 % s.block_size)
              (rng.tail.headD 0 % s.block_size)).getD
              (rng.tail.tail.headD 0 %
                (allowed_numbers s (rng.headD 0 % s.block_size)
                  (rng.tail.headD 0 % s.block_size)).length) 0) with
        | ok s1 =>
          simp only [hset] at h
          exact ih _ _ _ _ (set_ok_WF hWF hset)
            (set_ok_valid hWF hv (Nat.mod_lt _ hN) (Nat.mod_lt _ hN) hset) h
        | error e =>
          simp only [hset] at h
          exact ih _ _ _ _ hWF hv h
      · rw [if_neg hc] at h
        exact ih _ _ _ _ hWF hv h

theorem dig_loop_zero_base (fuel : Nat) (rng : List Nat) (s : Sudoku) (m : Nat) :
    dig_loop fuel rng s m 0 = some (s, rng) := by
  cases fuel <;> rfl

theorem dig_loop_no_fuel (rng : List Nat) (s : Sudoku) (m k : Nat) :
    dig_loop 0 rng s m (k + 1) = none := rfl

theorem dig_loop_succ (fuel : Nat) (rng : List Nat) (s : Sudoku) (m k : Nat) :
    dig_loop (fuel + 1) rng s m (k + 1) =
      (if get s (rng.headD 0 % s.block_size) (rng.tail.headD 0 % s.block_size) > 0 ∧
          (allowed_numbers s (rng.headD 0 % s.block_size)
            (rng.tail.headD 0 % s.block_size)).length < m then
        match set s (rng.headD 0 % s.block_size) (rng.tail.headD 0 % s.block_size) 0 with
        | Except.ok s1 => dig_loop fuel rng.tail.tail s1 m k
        | Except.error _ => none
      else dig_loop fuel rng.tail.tail s m (k + 1)) := by
  rfl

/-- The digging loop preserves well-formedness and validity (it only
ever clears cells). -/
theorem dig_loop_wf_valid :
    ∀ (fuel : Nat) (rng : List Nat) (s : Sudoku) (m k : Nat) (out : Sudoku × List Nat),
      WF s → valid s → dig_loop fuel rng s m k = some out →
      WF out.1 ∧ valid out.1 := by
  intro fuel
  induction fuel with
  | zero =>
    intro rng s m k out hWF hv h
    cases k with
    | zero =>
      rw [dig_loop_zero_base] at h
      injection h with h
      rw [← h]
      exact ⟨hWF, hv⟩
    | succ k =>
      rw [dig_loop_no_fuel] at h
      exact Option.noConfusion h
  | succ fuel ih =>
    intro rng s m k out hWF hv h
    cases k with
    | zero =>
      rw [dig_loop_zero_base] at h
      injection h with h
      rw [← h]
      exact ⟨hWF, hv⟩
    | succ k =>
      rw [dig_loop_succ] at h
      by_cases hc : get s (rng.headD 0 % s.block_size) (rng.tail.headD 0 % s.block_size) > 0 ∧
          (allowed_numbers s (rng.headD 0 % s.block_size)
            (rng.tail.headD 0 % s.block_size)).length < m
      · rw [if_pos hc] at h
        rw [set_zero] at h
        simp only [] at h
        exact ih _ _ _ _ _ (WF_writeCell hWF _ _ 0) (valid_writeCell_zero hv _ _) h
      · rw [if_neg hc] at h
        exact ih _ _ _ _ _ hWF hv h

theorem generate_zero (rng : List Nat) (s : Sudoku) : generate 0 rng s = none := rfl

theorem generate_succ (fuel : Nat) (rng : List Nat) (s : Sudoku) :
    generate (fuel + 1) rng s =
      (match seed_loop fuel rng (reset s) s.mode.lower_size with
      | none => none
      | some (s1, rng1) =>
        match solve s1 with
        | (some _, s2) =>
          (match dig_loop fuel rng1.tail s2 (s.block_size - 2)
              (s.block_size ^ 2 -
                (s2.mode.lower_size +
                  rng1.headD 0 % (s2.mode.higher_size - s2.mode.lower_size + 1))) with
          | none => none
          | some (s3, _) => some s3)
        | (none, s2) => generate fuel rng1 s2) := by
  rfl

/-- `generate`, whenever it terminates, returns a well-formed and valid
state: the grid is rebuilt from blank via legal `set` calls. -/
theorem generate_wf_valid :
    ∀ (fuel : Nat) (rng : List Nat) (s : Sudoku) (g' : Sudoku),
      WF s → generate fuel rng s = some g' → WF g' ∧ valid g' := by
  intro fuel
  induction fuel with
  | zero =>
    intro rng s g' _ h
    rw [generate_zero] at h
    exact Option.noConfusion h
  | succ fuel ih =>
    intro rng s g' hWF h
    rw [generate_succ] at h
    cases hseed : seed_loop fuel rng (reset s) s.mode.lower_size with
    | none =>
      rw [hseed] at h
      exact Option.noConfusion h
    | some p =>
      rcases p with ⟨s1, rng1⟩
      simp only [hseed] at h
      have h1 := seed_loop_wf_valid fuel rng (reset s) _ (s1, rng1)
        (WF_reset hWF) (valid_reset s) hseed
      rcases hsolve : solve s1 with ⟨o, s2⟩
      simp only [hsolve] at h
      have h2 : WF s2 ∧ valid s2 := by
        have hs := solve_wf_valid h1.1 h1.2
        rw [hsolve] at hs
        exact hs
      cases o with
      | some g =>
        cases hdig : dig_loop fuel rng1.tail s2 (s.block_size - 2)
            (s.block_size ^ 2 -
              (s2.mode.lower_size +
                rng1.headD 0 % (s2.mode.higher_size - s2.mode.lower_size + 1))) with
        | none =>
          simp only [hdig] at h
          exact Option.noConfusion h
        | some q =>
          rcases q with ⟨s3, rng3⟩
          simp only [hdig] at h
          injection h with h
          rw [← h]
          exact dig_loop_wf_valid fuel rng1.tail s2 _ _ (s3, rng3) h2.1 h2.2 hdig
      | none =>
        exact ih rng1 s2 g' h2.1 h

/-! ### The selection heuristic, as the spec words it -/

/-- Candidate-set size of a cell. -/
def cand_len (s : Sudoku) (c : Nat × Nat) : Nat :=
  (allowed_numbers s c.1 c.2).length

/-- The prefix of cells the selection loop actually scans: all cells up
to and including the first one with exactly one candidate (spec-side
definition, following §4.4 "stop scanning early the instant a cell with
exactly one candidate is found"). -/
def scannedCells (s : Sudoku) : List (Nat × Nat) → List (Nat × Nat)
  | [] => []
  | c :: t => if cand_len s c = 1 then [c] else c :: scannedCells s t

/-- The minimum candidate-set size over a list of cells (spec-side
definition; `none` on the empty list). -/
def minCand (s : Sudoku) : List (Nat × Nat) → Option Nat
  | [] => none
  | c :: t =>
    match minCand s t with
    | none => some (cand_len s c)
    | some m => some (if cand_len s c ≤ m then cand_len s c else m)

/-- The selection rule in the spec's words (§4.4): among the scanned
empty cells, the first cell achieving the minimum observed
candidate-set size. -/
def specSelect (s : Sudoku) : Option (Nat × Nat) :=
  match minCand s (scannedCells s (empty_cells s)) with
  | none => none
  | some m => (scannedCells s (empty_cells s)).find? (fun c => cand_len s c == m)

theorem minCand_eq_none {s : Sudoku} :
    ∀ {l : List (Nat × Nat)}, minCand s l = none → l = [] := by
  intro l h
  cases l with
  | nil => rfl
  | cons c t =>
    cases hmt : minCand s t <;> simp only [minCand, hmt] at h <;> exact Option.noConfusion h

theorem minCand_le {s : Sudoku} :
    ∀ (l : List (Nat × Nat)) (m : Nat), minCand s l = some m →
      ∀ c ∈ l, m ≤ cand_len s c := by
  intro l
  induction l with
  | nil => intro m h; exact Option.noConfusion h
  | cons c t ih =>
    intro m h d hd
    simp only [minCand] at h
    cases hmt : minCand s t with
    | none =>
      rw [hmt] at h
      injection h with h
      rcases List.mem_cons.1 hd with hdc | hdt
      · rw [hdc, h]
      · rw [minCand_eq_none hmt] at hdt
        exact absurd hdt (List.not_mem_nil d)
    | some mt =>
      rw [hmt] at h
      injection h with h
      rcases List.mem_cons.1 hd with hdc | hdt
      · rw [hdc]
        by_cases hle : cand_len s c ≤ mt
        · rw [if_pos hle] at h
          omega
        · rw [if_neg hle] at h
          omega
      · have hih := ih mt hmt d hdt
        by_cases hle : cand_len s c ≤ mt
        · rw [if_pos hle] at h
          omega
        · rw [if_neg hle] at h
          omega

theorem minCand_attained {s : Sudoku} :
    ∀ (l : List (Nat × Nat)) (m : Nat), minCand s l = some m →
      ∃ c ∈ l, cand_len s c = m := by
  intro l
  induction l with
  | nil => intro m h; exact Option.noConfusion h
  | cons c t ih =>
    intro m h
    simp only [minCand] at h
    cases hmt : minCand s t with
    | none =>
      rw [hmt] at h
      injection h with h
      exact ⟨c, List.mem_cons_self c t, h⟩
    | some mt =>
      rw [hmt] at h
      injection h with h
      by_cases hle : cand_len s c ≤ mt
      · rw [if_pos hle] at h
        exact ⟨c, List.mem_cons_self c t, h⟩
      · rw [if_neg hle] at h
        obtain ⟨d, hd, hdm⟩ := ih mt hmt
        exact ⟨d, List.mem_cons_of_mem c hd, hdm.trans h⟩

theorem allowed_numbers_length_le (s : Sudoku) (x y : Nat) :
    (allowed_numbers s x y).length ≤ s.numbers.length := by
  unfold allowed_numbers
  by_cases h : 1 < (allowed_numbers_in_block s x y).length
  · rw [if_pos h]
    exact Nat.le_trans (List.length_filter_le _ _) (List.length_filter_le _ _)
  · rw [if_neg h]
    exact List.length_filter_le _ _

/-- The scanning loop computes exactly the spec's rule: if the minimum
scanned candidate size beats the running bound, the first scanned cell
achieving it; otherwise the incoming result. -/
theorem aec_loop_eq_spec (s : Sudoku) :
    ∀ (l : List (Nat × Nat)) (m : Nat) (res : Option (Nat × Nat)),
      aec_loop s l m res =
        match minCand s (scannedCells s l) with
        | none => res
        | some mv =>
          if mv < m then (scannedCells s l).find? (fun c => cand_len s c == mv) else res := by
  intro l
  induction l with
  | nil => intro m res; rfl
  | cons c t ih =>
    intro m res
    simp only [aec_loop, scannedCells]
    by_cases h1 : (allowed_numbers s c.1 c.2).length = 1
    · rw [if_pos h1, if_pos (show cand_len s c = 1 from h1)]
      by_cases hlt : (allowed_numbers s c.1 c.2).length < m
      · rw [if_pos hlt]
        simp only [minCand]
        rw [if_pos (show cand_len s c < m from hlt)]
        rw [List.find?_cons_of_pos _ (by simp [cand_len])]
      · rw [if_neg hlt]
        simp only [minCand]
        rw [if_neg (show ¬(cand_len s c < m) from hlt)]
    · rw [if_neg h1, if_neg (show ¬(cand_len s c = 1) from h1)]
      by_cases hlt : (allowed_numbers s c.1 c.2).length < m
      · rw [if_pos hlt, if_pos hlt, ih]
        cases hmt : minCand s (scannedCells s t) with
        | none =>
          rw [minCand_eq_none hmt]
          simp only [minCand]
          rw [if_pos (show cand_len s c < m from hlt)]
          simp [cand_len]
        | some mt =>
          simp only [minCand, hmt]
          by_cases hmtlt : mt < (allowed_numbers s c.1 c.2).length
          · rw [if_neg (show ¬(cand_len s c ≤ mt) from by
                simp only [cand_len]
                omega),
              if_pos hmtlt, if_pos (Nat.lt_trans hmtlt hlt),
              List.find?_cons_of_neg _ (by
                simp only [cand_len, beq_iff_eq]
                omega)]
          · rw [if_pos (show cand_len s c ≤ mt from by
                simp only [cand_len]
                omega),
              if_neg hmtlt, if_pos (show cand_len s c < m from hlt),
              List.find?_cons_of_pos _ (by simp [cand_len])]
      · rw [if_neg hlt, if_neg hlt, ih]
        cases hmt : minCand s (scannedCells s t) with
        | none =>
          rw [minCand_eq_none hmt]
          simp only [minCand]
          rw [if_neg (show ¬(cand_len s c < m) from hlt)]
        | some mt =>
          simp only [minCand, hmt]
          by_cases hmtm : mt < m
          · have hmlen : m ≤ (allowed_numbers s c.1 c.2).length := Nat.le_of_not_lt hlt
            rw [if_neg (show ¬(cand_len s c ≤ mt) from by
                simp only [cand_len]
                omega),
              if_pos hmtm, if_pos hmtm,
              List.find?_cons_of_neg _ (by
                simp only [cand_len, beq_iff_eq]
                omega)]
          · have h1 : m ≤ (allowed_numbers s c.1 c.2).length := Nat.le_of_not_lt hlt
            have h2 : m ≤ mt := Nat.le_of_not_lt hmtm
            rw [if_neg hmtm, if_neg (show
                ¬((if cand_len s c ≤ mt then cand_len s c else mt) < m) from by
              simp only [cand_len]
              split_ifs <;> omega)]

/-! ### Claim theorems -/

/-- The state of the 9-grid of the C2 scenario after `set(0,0,5)`. -/
def c2s1 : Sudoku := writeCell blank9s 0 0 5

/-- Claim C1, as stated, is false on the code: on the valid grid `c1s`
the block-only candidate set of cell (0,0) is the singleton `[4]`, so
the short-circuit returns it without the row/column intersection, yet
digit 4 already sits in row 0 (at column 3). -/
theorem c1_counterexample :
    WF c1s ∧ valid c1s ∧ allowed_numbers c1s 0 0 = [4] ∧ 4 ∈ row c1s 0 := by
  decide

/-- Claim C1 (amended): every digit returned by `allowed_numbers` is
absent from the block of `(x, y)`; when the block-only candidate set has
more than one member (so the intersection path runs), the digit is also
absent from row `y` and column `x`.  In the short-circuit case the
returned digit may still occur in the row or the column. -/
theorem c1_candidates_legality :
    ∀ (s : Sudoku) (x y d : Nat), d ∈ allowed_numbers s x y →
      d ∉ blockValues s x y ∧
      (1 < (allowed_numbers_in_block s x y).length →
        d ∉ row s y ∧ d ∉ column s x) := by
  intro s x y d h
  obtain ⟨hb, hrc⟩ := mem_allowed_numbers_elim h
  refine ⟨(mem_allowed_block.1 hb).2, fun hlen => ?_⟩
  obtain ⟨hr, hc⟩ := hrc hlen
  exact ⟨(mem_allowed_row.1 hr).2, (mem_allowed_column.1 hc).2⟩

/-- Witness for C1: digit 2 is a candidate of the blank cell (2,2) of
`c1s`, and the amended legality facts hold there. -/
theorem c1_witness :
    (2 ∈ allowed_numbers c1s 2 2) ∧
    (2 ∉ blockValues c1s 2 2 ∧
      (1 < (allowed_numbers_in_block c1s 2 2).length →
        2 ∉ row c1s 2 ∧ 2 ∉ column c1s 2)) :=
  ⟨by decide, c1_candidates_legality c1s 2 2 2 (by decide)⟩

/-- Claim C2: the full contract of `set` — value 0 always clears;
re-setting the current value is a no-op success; a nonzero differing
value is written exactly when absent from the row, the column and the
block, and otherwise the call fails with the error naming the first
violated scope in row/column/block order; and the concrete blank-9-grid
scenario. -/
theorem c2_set_contract :
    ∀ (s : Sudoku) (x y v : Nat),
      (set s x y 0 = Except.ok (writeCell s x y 0)) ∧
      (v ≠ 0 → get s x y = v → set s x y v = Except.ok s) ∧
      (∀ s', v ≠ 0 → get s x y ≠ v → set s x y v = Except.ok s' →
        s' = writeCell s x y v ∧ v ∉ row s y ∧ v ∉ column s x ∧ v ∉ blockValues s x y) ∧
      (v ≠ 0 → get s x y ≠ v → v ∈ row s y →
        set s x y v =
          Except.error (toString v ++ " is not allowed in the row " ++ toString y)) ∧
      (v ≠ 0 → get s x y ≠ v → v ∈ s.numbers → v ∉ row s y → v ∈ column s x →
        set s x y v =
          Except.error (toString v ++ " is not allowed in the column " ++ toString x)) ∧
      (v ≠ 0 → get s x y ≠ v → v ∈ s.numbers → v ∉ row s y → v ∉ column s x →
          v ∈ blockValues s x y →
        set s x y v = Except.error (toString v ++ " is not allowed in the block")) ∧
      (set blank9s 0 0 5 = Except.ok c2s1 ∧
        set c2s1 0 1 5 = Except.error "5 is not allowed in the column 0" ∧
        set c2s1 1 0 5 = Except.error "5 is not allowed in the row 0" ∧
        set c2s1 3 3 5 = Except.ok (writeCell c2s1 3 3 5)) := by
  intro s x y v
  refine ⟨set_zero s x y, ?_, ?_, ?_, ?_, ?_, by decide, by decide, by decide, by decide⟩
  · intro hv he
    exact set_eq_val (Nat.pos_of_ne_zero hv) he
  · intro s' hv hne hok
    rcases set_ok_cases hok with ⟨h0, _⟩ | ⟨_, he, _⟩ | ⟨_, _, hr, hc, hb, hw⟩
    · exact absurd h0 hv
    · exact absurd he hne
    · exact ⟨hw, (mem_allowed_row.1 hr).2, (mem_allowed_column.1 hc).2,
        (mem_allowed_block.1 hb).2⟩
  · intro hv hne hrow
    exact set_err_row (Nat.pos_of_ne_zero hv) hne
      (fun hmem => (mem_allowed_row.1 hmem).2 hrow)
  · intro hv hne hnum hnr hcol
    exact set_err_column (Nat.pos_of_ne_zero hv) hne (mem_allowed_row.2 ⟨hnum, hnr⟩)
      (fun hmem => (mem_allowed_column.1 hmem).2 hcol)
  · intro hv hne hnum hnr hnc hblk
    exact set_err_block (Nat.pos_of_ne_zero hv) hne (mem_allowed_row.2 ⟨hnum, hnr⟩)
      (mem_allowed_column.2 ⟨hnum, hnc⟩)
      (fun hmem => (mem_allowed_block.1 hmem).2 hblk)

/-- Witness for C2: the column-violation case of the contract at a
concrete input. -/
theorem c2_witness :
    ((5 : Nat) ≠ 0) ∧ (get c2s1 0 1 ≠ 5) ∧ (5 ∈ c2s1.numbers) ∧
    (5 ∉ row c2s1 1) ∧ (5 ∈ column c2s1 0) ∧
    set c2s1 0 1 5 =
      Except.error (toString (5 : Nat) ++ " is not allowed in the column " ++
        toString (0 : Nat)) :=
  ⟨by decide, by decide, by decide, by decide, by decide,
    (c2_set_contract c2s1 0 1 5).2.2.2.2.1 (by decide) (by decide) (by decide)
      (by decide) (by decide)⟩

/-- The count of a blank grid is zero. -/
theorem get_count_default_grid {s : Sudoku} {n : Nat} (h : s.grid = default_grid n) :
    get_count s = 0 := by
  unfold get_count
  rw [h]
  unfold default_grid
  induction n with
  | zero => rfl
  | succ n ih =>
    rw [List.replicate_succ, List.flatten_cons, List.filter_append, List.length_append]
    rw [show (List.replicate (n + 1) (0 : Nat)).filter (fun x => decide (x > 0)) = [] from by
      induction (n + 1) with
      | zero => rfl
      | succ k ihk => rw [List.replicate_succ, List.filter_cons]; simpa using ihk]
    simpa using ih

/-- Claim C8: `get_difficulty` is exactly the fixed-threshold function
of `get_count` — 40–81 "Easy", 25–39 "Medium", 1–24 "Hard", 0 or
anything above 81 "Unknown" — it depends on the grid only through the
count, and every blank grid built by `Sudoku::new` for a supported size
key has count 0 and classifies as "Unknown". -/
theorem c8_difficulty_thresholds :
    ∀ (s : Sudoku),
      (get_difficulty s = "Easy" ↔ 40 ≤ get_count s ∧ get_count s ≤ 81) ∧
      (get_difficulty s = "Medium" ↔ 25 ≤ get_count s ∧ get_count s ≤ 39) ∧
      (get_difficulty s = "Hard" ↔ 1 ≤ get_count s ∧ get_count s ≤ 24) ∧
      (get_difficulty s = "Unknown" ↔ (get_count s = 0 ∨ 81 < get_count s)) ∧
      (∀ s2 : Sudoku, get_count s = get_count s2 → get_difficulty s = get_difficulty s2) ∧
      (∀ (key : String) (b : Sudoku), sudoku_new none (some key) = some b →
        get_count b = 0 ∧ get_difficulty b = "Unknown") := by
  intro s
  have hgen : ∀ t : Sudoku, get_difficulty t =
      if 40 ≤ get_count t ∧ get_count t ≤ 81 then "Easy"
      else if 25 ≤ get_count t ∧ get_count t ≤ 39 then "Medium"
      else if 1 ≤ get_count t ∧ get_count t ≤ 24 then "Hard"
      else "Unknown" := fun t => rfl
  have hblank : ∀ (key : String) (b : Sudoku), sudoku_new none (some key) = some b →
      get_count b = 0 ∧ get_difficulty b = "Unknown" := by
    intro key b h
    simp only [sudoku_new, Option.getD] at h
    cases hm : MODES key with
    | none => rw [hm] at h; exact Option.noConfusion h
    | some m =>
      rw [hm] at h
      injection h with h
      have hg : b.grid = default_grid (m.width * m.height) := by rw [← h]
      have hc : get_count b = 0 := get_count_default_grid hg
      refine ⟨hc, ?_⟩
      rw [hgen b, hc]
      rfl
  refine ⟨?_, ?_, ?_, ?_, ?_, hblank⟩
  · rw [hgen s]
    split_ifs with h1 h2 h3
    · exact iff_of_true rfl h1
    · exact iff_of_false (by decide) h1
    · exact iff_of_false (by decide) h1
    · exact iff_of_false (by decide) h1
  · rw [hgen s]
    split_ifs with h1 h2 h3
    · exact iff_of_false (by decide) (by omega)
    · exact iff_of_true rfl h2
    · exact iff_of_false (by decide) h2
    · exact iff_of_false (by decide) h2
  · rw [hgen s]
    split_ifs with h1 h2 h3
    · exact iff_of_false (by decide) (by omega)
    · exact iff_of_false (by decide) (by omega)
    · exact iff_of_true rfl h3
    · exact iff_of_false (by decide) h3
  · rw [hgen s]
    split_ifs with h1 h2 h3
    · exact iff_of_false (by decide) (by omega)
    · exact iff_of_false (by decide) (by omega)
    · exact iff_of_false (by decide) (by omega)
    · exact iff_of_true rfl (by omega)
  · intro s2 he
    rw [hgen s, hgen s2, he]

/-- Witness for C8: the blank 9-grid built by `Sudoku::new` has count 0
and classifies as "Unknown". -/
theorem c8_witness :
    (sudoku_new none (some "9") = some blank9s) ∧
    (get_count blank9s = 0 ∧ get_difficulty blank9s = "Unknown") :=
  ⟨by decide, (c8_difficulty_thresholds blank9s).2.2.2.2.2 "9" blank9s (by decide)⟩

/-- Claim C3: grid validity is an invariant — preserved by `set`
whether it succeeds or fails, by `solve_ultimately` at any depth, by
`solve`, and by any terminating run of `generate`. -/
theorem c3_validity_invariant :
    ∀ (s : Sudoku), WF s → valid s →
      (∀ x y v, x < s.block_size → y < s.block_size → valid (setResult s x y v)) ∧
      (∀ fuel, valid (solve_ultimately fuel s).2) ∧
      valid (solve s).2 ∧
      (∀ fuel rng g', generate fuel rng s = some g' → valid g') := by
  intro s hWF hv
  refine ⟨?_, ?_, ?_, ?_⟩
  · intro x y v hx hy
    cases hset : set s x y v with
    | ok t =>
      simp only [setResult, hset]
      exact set_ok_valid hWF hv hx hy hset
    | error e =>
      simp only [setResult, hset]
      exact hv
  · intro fuel
    exact (solve_ultimately_wf_valid fuel s hWF hv).2
  · exact (solve_wf_valid hWF hv).2
  · intro fuel rng g' h
    exact (generate_wf_valid fuel rng s g' hWF h).2

/-- Witness for C3 on the blank 4-grid. -/
theorem c3_witness :
    WF blank4s ∧ valid blank4s ∧ valid (setResult blank4s 0 0 1) :=
  ⟨by decide, by decide,
    (c3_validity_invariant blank4s (by decide) (by decide)).1 0 0 1 (by decide) (by decide)⟩

/-- Claim C4, as stated, is false on the code: there is no grid at all
on which `solve` returns `None` with a changed grid, because every
iteration of the backtracking loop clears the tried cell (`set(x,y,0)`
runs after every failed attempt), so a failed search restores the grid
completely. -/
theorem c4_counterexample :
    ¬ ∃ s : Sudoku, (solve s).1 = none ∧ (solve s).2.grid ≠ s.grid := by
  rintro ⟨s, h1, h2⟩
  exact h2 (congrArg Sudoku.grid (solve_none_restore h1))

/-- Claim C4 (amended): `solve` indicates unsolvability with the grid
fully restored — after a `None` result the state equals the state at
call time. -/
theorem c4_failed_solve_restores :
    ∀ s : Sudoku, (solve s).1 = none → (solve s).2 = s :=
  fun _ h => solve_none_restore h

/-- Witness for C4: a concrete unsolvable valid grid. -/
theorem c4_witness : ((solve c4s).1 = none) ∧ (solve c4s).2 = c4s :=
  ⟨by decide, c4_failed_solve_restores c4s (by decide)⟩

/-- Claim C5, as stated, is false on the code: the seeding loop picks a
uniformly random cell that need not be empty, and `set` happily
overwrites a filled cell with another legal value.  Under the pre-drawn
stream `c5rng` the loop on a blank 4-grid (lower_size 4) overwrites
cell (0,0) once and terminates with only 3 nonzero cells. -/
theorem c5_counterexample :
    seed_loop 5 c5rng blank4s 4 = some (c5seeded, []) ∧
    blank4s.mode.lower_size = 4 ∧ get_count c5seeded = 3 := by
  decide

/-- Claim C5 (amended): the seeding loop stops after `base_numbers`
successful `set` calls, each of which raises the filled count by at
most one (an accepted placement may overwrite an already filled cell),
so on termination the grid holds at most `lower_size` nonzero cells —
possibly fewer, never more. -/
theorem c5_seeding_count_bound :
    ∀ (fuel : Nat) (rng : List Nat) (s : Sudoku) (k : Nat) (out : Sudoku × List Nat),
      seed_loop fuel rng s k = some out →
      get_count out.1 ≤ get_count s + k ∧ (get_count s = 0 → get_count out.1 ≤ k) := by
  intro fuel rng s k out h
  have hb := seed_loop_count fuel rng s k out h
  exact ⟨hb, fun h0 => by omega⟩

/-- Witness for C5: the bound applied to the concrete run. -/
theorem c5_witness :
    (seed_loop 5 c5rng blank4s 4 = some (c5seeded, [])) ∧
    (get_count c5seeded ≤ get_count blank4s + 4 ∧
      (get_count blank4s = 0 → get_count c5seeded ≤ 4)) :=
  ⟨by decide, c5_seeding_count_bound 5 c5rng blank4s 4 (c5seeded, []) (by decide)⟩

/-- Claim C6, as stated, is false on the code: `solve` has a real
precondition.  On the fully filled but invalid all-ones grid,
`is_solved` fires immediately and `solve` returns the input grid as a
"solution", which violates the validity invariant. -/
theorem c6_counterexample :
    (solve allOnes4).1 = some allOnes4.grid ∧ ¬ valid (solve allOnes4).2 := by
  decide

/-- Claim C6 (amended): a `Some` result of `solve` is always the final
state's grid and is fully filled; it satisfies the validity invariant
provided the input grid was well-formed and valid (an invalid
fully-filled input is returned unchanged, so validity of the result
genuinely needs the precondition). -/
theorem c6_solver_postcondition :
    ∀ (s : Sudoku) (g : Grid), (solve s).1 = some g →
      (g = (solve s).2.grid ∧ is_solved (solve s).2 = true) ∧
      (WF s → valid s → valid (solve s).2) := by
  intro s g h
  exact ⟨solve_some_grid h, fun hWF hv => (solve_wf_valid hWF hv).2⟩

/-- The solved grid of the C6 witness. -/
def c6solved : Grid := [[1,2,3,4],[3,4,1,2],[2,1,4,3],[4,3,2,1]]

/-- Witness for C6 on a valid 4-grid with one empty cell. -/
theorem c6_witness :
    ((solve c6s).1 = some c6solved) ∧ WF c6s ∧ valid c6s ∧
    ((c6solved = (solve c6s).2.grid ∧ is_solved (solve c6s).2 = true) ∧
      (WF c6s → valid c6s → valid (solve c6s).2)) :=
  ⟨by decide, by decide, by decide, c6_solver_postcondition c6s c6solved (by decide)⟩

/-- Claim C10: `solve` never modifies a clue — every cell nonzero at
call time holds the same value in the final state, whether the result
is `Some` or `None`, and a `Some` result is exactly the final state's
grid, so it agrees with the input on all originally nonzero cells. -/
theorem c10_solve_preserves_clues :
    ∀ (s : Sudoku) (x y : Nat), get s x y ≠ 0 →
      get (solve s).2 x y = get s x y ∧
      ((solve s).1 = none ∨ (solve s).1 = some (solve s).2.grid) := by
  intro s x y h
  refine ⟨solve_frame x y h, ?_⟩
  cases ho : (solve s).1 with
  | none => exact Or.inl rfl
  | some g =>
    exact Or.inr (congrArg some (solve_some_grid ho).1)

/-- Witness for C10: the clue at (1,0) of `c6s` survives solving. -/
theorem c10_witness :
    (get c6s 1 0 ≠ 0) ∧
    (get (solve c6s).2 1 0 = get c6s 1 0 ∧
      ((solve c6s).1 = none ∨ (solve c6s).1 = some (solve c6s).2.grid)) :=
  ⟨by decide, c10_solve_preserves_clues c6s 1 0 (by decide)⟩

/-- The retry loop either returns an in-band board, or exhausts its
retries having seen only out-of-band boards and returns the last one. -/
theorem gb_loop_spec (boards : Nat → Sudoku) (d : Difficulty) :
    ∀ (fuel i : Nat),
      ((get_cell_ranges d).1 ≤ get_count (gb_loop boards d fuel i) ∧
        get_count (gb_loop boards d fuel i) ≤ (get_cell_ranges d).2) ∨
      (gb_loop boards d fuel i = boards (i + fuel) ∧
        ∀ k, i ≤ k → k ≤ i + fuel →
          ¬((get_cell_ranges d).1 ≤ get_count (boards k) ∧
            get_count (boards k) ≤ (get_cell_ranges d).2)) := by
  intro fuel
  induction fuel with
  | zero =>
    intro i
    by_cases hc : (get_cell_ranges d).1 ≤ get_count (boards i) ∧
        get_count (boards i) ≤ (get_cell_ranges d).2
    · left
      simp only [gb_loop]
      rw [if_pos hc]
      exact hc
    · right
      simp only [gb_loop]
      rw [if_neg hc]
      refine ⟨rfl, ?_⟩
      intro k hk1 hk2
      have hki : k = i := by omega
      rw [hki]
      exact hc
  | succ fuel ih =>
    intro i
    by_cases hc : (get_cell_ranges d).1 ≤ get_count (boards i) ∧
        get_count (boards i) ≤ (get_cell_ranges d).2
    · left
      simp only [gb_loop]
      rw [if_pos hc]
      exact hc
    · simp only [gb_loop]
      rw [if_neg hc]
      rcases ih (i + 1) with hin | ⟨heq, hall⟩
      · left
        exact hin
      · right
        refine ⟨by rw [heq]; congr 1; omega, ?_⟩
        intro k hk1 hk2
        by_cases hki : k = i
        · rw [hki]
          exact hc
        · exact hall k (by omega) (by omega)

/-- Claim C9: every board returned by the Easy-band generation loop
either has a filled count in [40, 81], or the 100-attempt cap was
exhausted — all 100 generated boards were out of band — and the last
generated board is returned regardless of its count. -/
theorem c9_easy_band :
    ∀ (boards : Nat → Sudoku),
      (40 ≤ get_count (gen_board_with_difficulty boards Difficulty.easy) ∧
        get_count (gen_board_with_difficulty boards Difficulty.easy) ≤ 81) ∨
      (gen_board_with_difficulty boards Difficulty.easy = boards 99 ∧
        ∀ k, k < 100 → ¬(40 ≤ get_count (boards k) ∧ get_count (boards k) ≤ 81)) := by
  intro boards
  rcases gb_loop_spec boards Difficulty.easy 99 0 with hin | ⟨heq, hall⟩
  · left
    exact hin
  · right
    refine ⟨heq, ?_⟩
    intro k hk
    exact hall k (Nat.zero_le k) (by omega)

/-- Witness for C9: a board sequence of blank grids (count 0, out of
band) exhausts the cap. -/
theorem c9_witness :
    (40 ≤ get_count (gen_board_with_difficulty (fun _ => blank4s) Difficulty.easy) ∧
      get_count (gen_board_with_difficulty (fun _ => blank4s) Difficulty.easy) ≤ 81) ∨
    (gen_board_with_difficulty (fun _ => blank4s) Difficulty.easy = blank4s ∧
      ∀ k, k < 100 →
        ¬(40 ≤ get_count ((fun (_ : Nat) => blank4s) k) ∧
          get_count ((fun (_ : Nat) => blank4s) k) ≤ 81)) :=
  c9_easy_band (fun _ => blank4s)

theorem scannedCells_ne_nil {s : Sudoku} {l : List (Nat × Nat)} (h : l ≠ []) :
    scannedCells s l ≠ [] := by
  cases l with
  | nil => exact absurd rfl h
  | cons c t =>
    simp only [scannedCells]
    split_ifs <;> simp

theorem any_empty_cell_eq_spec (s : Sudoku) (hnum : s.numbers.length = s.block_size) :
    any_empty_cell s none = specSelect s := by
  unfold any_empty_cell specSelect
  rw [aec_loop_eq_spec]
  cases hm : minCand s (scannedCells s (empty_cells s)) with
  | none => rfl
  | some m =>
    have hb : m ≤ s.block_size := by
      obtain ⟨c, _, hc⟩ := minCand_attained _ m hm
      rw [← hc]
      calc cand_len s c ≤ s.numbers.length := allowed_numbers_length_le s c.1 c.2
        _ = s.block_size := hnum
    have hlt : m < (none : Option Nat).getD (s.block_size + 1) := by
      show m < s.block_size + 1
      omega
    simp [hlt]
    intro hcon
    exact absurd hcon (by omega)

/-- Claim C7: `any_empty_cell` computes exactly the spec's selection
rule — among the scanned empty cells (row-major order, stopping at the
first single-candidate cell), the first cell achieving the minimum
candidate-set size; any selected cell has minimal candidate-set size
among the scanned cells; and a cell is selected whenever some empty
cell exists (in particular one with a non-empty candidate set). -/
theorem c7_selection_heuristic :
    ∀ (s : Sudoku), s.numbers.length = s.block_size →
      any_empty_cell s none = specSelect s ∧
      (∀ c, any_empty_cell s none = some c →
        c ∈ scannedCells s (empty_cells s) ∧
        ∀ d ∈ scannedCells s (empty_cells s), cand_len s c ≤ cand_len s d) ∧
      ((∃ c ∈ empty_cells s, allowed_numbers s c.1 c.2 ≠ []) →
        ∃ c, any_empty_cell s none = some c) := by
  intro s hnum
  have heq := any_empty_cell_eq_spec s hnum
  refine ⟨heq, ?_, ?_⟩
  · intro c hc
    rw [heq] at hc
    unfold specSelect at hc
    cases hm : minCand s (scannedCells s (empty_cells s)) with
    | none =>
      rw [hm] at hc
      exact Option.noConfusion hc
    | some m =>
      simp only [hm] at hc
      have hmem := List.mem_of_find?_eq_some hc
      have hpred := List.find?_some hc
      rw [beq_iff_eq] at hpred
      refine ⟨hmem, fun d hd => ?_⟩
      rw [hpred]
      exact minCand_le _ m hm d hd
  · rintro ⟨c0, hc0, _⟩
    have hne : empty_cells s ≠ [] := by
      intro hnil
      rw [hnil] at hc0
      exact absurd hc0 (List.not_mem_nil c0)
    have hsc := scannedCells_ne_nil (s := s) hne
    cases hm : minCand s (scannedCells s (empty_cells s)) with
    | none => exact absurd (minCand_eq_none hm) hsc
    | some m =>
      rw [heq]
      unfold specSelect
      simp only [hm]
      obtain ⟨d, hd, hdm⟩ := minCand_attained _ m hm
      have hfind : ((scannedCells s (empty_cells s)).find?
          (fun c => cand_len s c == m)).isSome = true := by
        rw [List.find?_isSome]
        exact ⟨d, hd, by rw [hdm]; exact beq_self_eq_true m⟩
      obtain ⟨c, hc⟩ := Option.isSome_iff_exists.1 hfind
      exact ⟨c, hc⟩

/-- Witness for C7 on the blank 4-grid. -/
theorem c7_witness :
    (blank4s.numbers.length = blank4s.block_size) ∧
    any_empty_cell blank4s none = specSelect blank4s ∧
    any_empty_cell blank4s none = some (0, 0) :=
  ⟨by decide, (c7_selection_heuristic blank4s (by decide)).1, by decide⟩

end SudokuApi
